import Mathlib

/-!
# Verification of the cross-video suspect-tracking and event-correlation pipeline

A shallow embedding, in Lean 4, of the core algorithms of the backend:

* `backend/utils/timeline_generator.py` — `merge_nearby_events` (event merger);
* `backend/utils/suspect_tracker.py` — `track_suspect` and `compare_embeddings`;
* `backend/utils/video_analyzer.py` — the module-level `track_suspect`,
  `_process_frames_batch`, the annotation passes and `build_knowledge_graph`;
* `backend/utils/graph_builder.py` — `build_knowledge_graph`.

Modelling conventions:

* ISO-8601 timestamps are modelled as integers (seconds since the epoch).
  Throughout the source a timestamp string is parsed with
  `datetime.fromisoformat` before any comparison or subtraction, and the
  sort keys used on timestamp strings agree with chronological order for
  the uniform format the ingestion code produces, so integer timestamps
  and integer comparison/subtraction are a faithful model.
* Python floats of the scoring logic are modelled as rationals (`ℚ`).
* External collaborators (the vision/LLM detection services, the random
  embedding simulator, MongoDB, the file system, the `uuid4` supply and
  Python's global random generator) are modelled as explicit environment
  records / streams passed to the embedded functions.
* Fallible operations return `Except`; `NPError.valueError` stands for the
  `ValueError` numpy raises on a shape mismatch.
-/

/-! ## Timeline events and the event merger (`timeline_generator.py`) -/

/-- A timeline event, the dict shape produced by `generate_timeline` and
consumed by `merge_nearby_events` (`timeline_generator.py`).  `timestamp`,
`startTime` and `endTime` are in seconds. -/
structure TimelineEvent where
  id : String
  suspectId : String
  videoId : String
  timestamp : Int
  confidence : ℚ
  thumbnailUrl : String
  clipUrl : String
  description : String
  startTime : Int
  endTime : Int
deriving DecidableEq, Repr

/-- Left-pad a number to two digits, as `strftime` does. -/
def pad2 (n : Nat) : String :=
  if n < 10 then "0" ++ toString n else toString n

/-- `strftime("%I:%M %p")` on an epoch-seconds timestamp: 12-hour
clock rendering used by the merger's description clause. -/
def formatTimeHM (t : Int) : String :=
  let secsOfDay := (t % 86400).toNat
  let h24 := secsOfDay / 3600
  let m := (secsOfDay % 3600) / 60
  let h12 := if h24 % 12 = 0 then 12 else h24 % 12
  let ampm := if h24 < 12 then "AM" else "PM"
  pad2 h12 ++ ":" ++ pad2 m ++ " " ++ ampm

namespace TimelineGenerator

/-- The in-place update that `merge_nearby_events` performs on the current
open event when an incoming event is merged into it (lines 143-151 of
`timeline_generator.py`): `endTime` is replaced by the incoming event's
`endTime`, `confidence` becomes the max of the two, and a time-stamped
clause is appended to `description`. -/
def mergeInto (last incoming : TimelineEvent) : TimelineEvent :=
  { last with
    endTime := incoming.endTime
    confidence := max last.confidence incoming.confidence
    description :=
      last.description ++ " and again at " ++ formatTimeHM incoming.timestamp }

/-- The merge condition of `merge_nearby_events`: the incoming event's
timestamp is within `max_gap_seconds` of the current open event's timestamp
and both belong to the same video. -/
def mergeCond (max_gap_seconds : Int) (last incoming : TimelineEvent) : Prop :=
  incoming.timestamp - last.timestamp ≤ max_gap_seconds ∧
    incoming.videoId = last.videoId

instance (g : Int) (a b : TimelineEvent) : Decidable (mergeCond g a b) :=
  inferInstanceAs (Decidable (_ ∧ _))

/-- The `for event in sorted_events[1:]` loop of `merge_nearby_events`:
`last` is the current open event (`merged_events[-1]` in the source);
an incoming event satisfying the merge condition is absorbed into it,
otherwise the open event is closed and the incoming event opens a new one. -/
def mergeLoop (max_gap_seconds : Int) (last : TimelineEvent) :
    List TimelineEvent → List TimelineEvent
  | [] => [last]
  | e :: rest =>
    if mergeCond max_gap_seconds last e then
      mergeLoop max_gap_seconds (mergeInto last e) rest
    else
      last :: mergeLoop max_gap_seconds e rest

/-- Comparison by timestamp, the key of `sorted(timeline, key=lambda x:
x['timestamp'])`. -/
def tsLE (a b : TimelineEvent) : Prop := a.timestamp ≤ b.timestamp

instance : DecidableRel tsLE := fun a b =>
  inferInstanceAs (Decidable (a.timestamp ≤ b.timestamp))

instance : IsTotal TimelineEvent tsLE :=
  ⟨fun x y => Int.le_total x.timestamp y.timestamp⟩

instance : IsTrans TimelineEvent tsLE := ⟨fun _ _ _ => Int.le_trans⟩

/-- `merge_nearby_events(timeline, max_gap_seconds)` from
`timeline_generator.py` (lines 113-156): sort by timestamp (a stable sort,
modelled by `List.insertionSort`, which agrees with Python's stable
`sorted`), then do one greedy left-to-right pass merging each event into
the current open event when `mergeCond` holds. -/
def merge_nearby_events (timeline : List TimelineEvent)
    (max_gap_seconds : Int) : List TimelineEvent :=
  if timeline.isEmpty then []
  else
    match List.insertionSort tsLE timeline with
    | [] => []
    | e :: rest => mergeLoop max_gap_seconds e rest

/-- Instrumented variant of `mergeLoop` that also records, for each output
event, the consecutive run of input events it was built from (`grp` is the
run absorbed into the open event so far, first constituent included).  It
is related to `mergeLoop` by `mergeLoopG_map_fst`. -/
def mergeLoopG (max_gap_seconds : Int) (last : TimelineEvent)
    (grp : List TimelineEvent) :
    List TimelineEvent → List (TimelineEvent × List TimelineEvent)
  | [] => [(last, grp)]
  | e :: rest =>
    if mergeCond max_gap_seconds last e then
      mergeLoopG max_gap_seconds (mergeInto last e) (grp ++ [e]) rest
    else
      (last, grp) :: mergeLoopG max_gap_seconds e [e] rest

/-- `merge_nearby_events` instrumented with the runs of constituent input
events behind each output event. -/
def merge_grouped (timeline : List TimelineEvent)
    (max_gap_seconds : Int) : List (TimelineEvent × List TimelineEvent) :=
  if timeline.isEmpty then []
  else
    match List.insertionSort tsLE timeline with
    | [] => []
    | e :: rest => mergeLoopG max_gap_seconds e [e] rest

end TimelineGenerator


/-! ## Embedding similarity (`suspect_tracker.py` / numpy) -/

/-- The error a numpy call can raise; `valueError` is the `ValueError`
raised by `np.dot` on 1-d arrays of different lengths. -/
inductive NPError where
  | valueError
deriving DecidableEq, Repr

/-- Sum of pairwise products, the value `np.dot` computes on two 1-d
arrays of equal length. -/
def dotList (v w : List ℚ) : ℚ := (List.zipWith (· * ·) v w).sum

/-- `np.dot` on 1-d arrays: raises `ValueError` when the lengths differ,
otherwise the sum of pairwise products. -/
def np_dot (v w : List ℚ) : Except NPError ℚ :=
  if v.length = w.length then .ok (dotList v w) else .error .valueError

namespace SuspectTracker

/-- `SuspectTracker.compare_embeddings` (`suspect_tracker.py` lines
94-111): the raw dot product of the two embeddings (the vectors are not
re-normalized here; the embedding simulator normalizes them at creation),
clamped into [0, 1] by `max(0, min(1, similarity))`. -/
def compare_embeddings (e1 e2 : List ℚ) : Except NPError ℚ := do
  let similarity ← np_dot e1 e2
  pure (max 0 (min 1 similarity))

/-- A person detection produced by the (simulated) `detect_persons`. -/
structure STDetection where
  bbox : List ℚ
  confidence : ℚ
deriving DecidableEq, Repr

/-- Suspect record as used by `track_suspect`. -/
structure STSuspect where
  id : String
  imageUrl : String
deriving DecidableEq, Repr

/-- Video record as used by `track_suspect`; `timestamp` is the parsed
ISO start time of the video, in epoch seconds. -/
structure STVideo where
  id : String
  timestamp : Int
deriving DecidableEq, Repr

/-- The tracking-result dict built by `suspect_tracker.track_suspect`
(lines 198-208).  `startTime`/`endTime` are seconds into the video. -/
structure STTrackingResult where
  id : String
  suspectId : String
  videoId : String
  timestamp : Int
  confidence : ℚ
  frame_index : Nat
  bbox : List ℚ
  startTime : Int
  endTime : Int
deriving DecidableEq, Repr

/-- Environment of `suspect_tracker.track_suspect`: the file system and
the random-simulation oracles (`detect_persons`, `compute_embedding`) it
consults.  `detections v i` are the persons detected in frame `i` of
video `v`; `personEmbedding v i j` is the embedding computed for
detection `j` there. -/
structure STEnv where
  fileExists : String → Bool
  suspectEmbedding : List ℚ
  frameFiles : String → List String
  detections : String → Nat → List STDetection
  personEmbedding : String → Nat → Nat → List ℚ

/-- Timeframe filter of `suspect_tracker.track_suspect`; the source reads
both keys (`timeframe['start']`, `timeframe['end']`), modelled by the
fields `start` and `stop` (`end` is reserved in Lean), in epoch seconds. -/
structure STTimeframe where
  start : Int
  stop : Int
deriving DecidableEq, Repr

/-- `f"data/{suspect['imageUrl'].lstrip('/')}"` of line 135. -/
def suspectImagePath (suspect : STSuspect) : String :=
  "data/" ++ suspect.imageUrl.dropWhile (fun c => c == '/')

/-- Sequencing of a fallible list-producing body over a list, preserving
order: the pure-model counterpart of a Python `for` loop that `extend`s an
accumulator and lets exceptions propagate. -/
def flatMapE (f : α → Except ε (List β)) : List α → Except ε (List β)
  | [] => .ok []
  | a :: as => do
    let bs ← f a
    let rest ← flatMapE f as
    pure (bs ++ rest)

/-- The tracking-result dict of lines 198-208 for detection `j` in frame
`i` of `video` (frames are extracted at 1 fps, so the frame index is the
second offset). -/
def mkTrackingResult (suspect : STSuspect) (video : STVideo) (i j : Nat)
    (similarity : ℚ) (d : STDetection) : STTrackingResult :=
  { id := "event-" ++ video.id ++ "-" ++ toString i ++ "-" ++ toString j
    suspectId := suspect.id
    videoId := video.id
    timestamp := video.timestamp + (i : Int)
    confidence := similarity * 100
    frame_index := i
    bbox := d.bbox
    startTime := (i : Int)
    endTime := (i : Int) + 5 }

/-- Comparison by timestamp, the key of `tracking_results.sort(key=lambda
x: x['timestamp'])`. -/
def stLE (a b : STTrackingResult) : Prop := a.timestamp ≤ b.timestamp

instance : DecidableRel stLE := fun a b =>
  inferInstanceAs (Decidable (a.timestamp ≤ b.timestamp))

instance : IsTotal STTrackingResult stLE :=
  ⟨fun x y => Int.le_total x.timestamp y.timestamp⟩

instance : IsTrans STTrackingResult stLE := ⟨fun _ _ _ => Int.le_trans⟩

/-- `track_suspect(suspect, videos, timeframe)` from `suspect_tracker.py`
(lines 116-228).  A missing suspect reference image returns an ordinary
empty list (lines 137-139); a video whose frames directory is missing is
skipped (lines 158-160); every detection in every frame of every remaining
video is compared against the suspect embedding and kept iff
`similarity >= 0.7`; results are sorted by timestamp and, when a timeframe
is supplied, post-filtered to `start <= timestamp <= end` inclusive (lines
215-224).  The codomain is `Except` so that the failure modes the
specification claims (and the `ValueError` a shape mismatch in
`compare_embeddings` would propagate) are expressible; the source raises
nothing on the missing-image and empty-videos paths. -/
def track_suspect (env : STEnv) (suspect : STSuspect)
    (videos : List STVideo) (timeframe : Option STTimeframe) :
    Except NPError (List STTrackingResult) :=
  if env.fileExists (suspectImagePath suspect) = false then .ok []
  else do
    let results ← flatMapE (fun video =>
      if env.fileExists ("data/videos/frames/" ++ video.id) = false then
        .ok []
      else
        flatMapE (fun p =>
          flatMapE (fun q => do
            let person_embedding := env.personEmbedding video.id p.1 q.1
            let similarity ←
              compare_embeddings env.suspectEmbedding person_embedding
            pure (if (7 : ℚ) / 10 ≤ similarity then
                [mkTrackingResult suspect video p.1 q.1 similarity q.2]
              else []))
            ((env.detections video.id p.1).enum))
          ((env.frameFiles video.id).enum)) videos
    let sorted := List.insertionSort stLE results
    pure (match timeframe with
      | none => sorted
      | some tf => sorted.filter (fun r =>
          decide (tf.start ≤ r.timestamp) && decide (r.timestamp ≤ tf.stop)))

end SuspectTracker


/-! ## Video-analyzer tracking pipeline (`video_analyzer.py`) -/

namespace VideoAnalyzer

/-- A person detection stored on an analyzed frame, as read by
`_process_frames_batch`: `features` is the embedded feature vector (a
missing or empty value is falsy and skips the person, line 495). -/
structure VAPerson where
  features : List ℚ
  boundingBox : List ℚ
  carrying : List String
  activities : List String
  interactions : List String
deriving DecidableEq, Repr

/-- An analyzed frame record from the `frames` collection, as read by
`track_suspect` / `_process_frames_batch`. -/
structure VAFrame where
  id : String
  videoId : String
  timestamp : Int
  persons : List VAPerson
deriving DecidableEq, Repr

/-- Suspect record as used by the video-analyzer `track_suspect`. -/
structure VASuspect where
  id : String
deriving DecidableEq, Repr

/-- Video record; `location`, `name` and `timestamp` are read with
`.get` defaults when building `video_metadata` (lines 390-394). -/
structure VideoRec where
  id : String
  location : Option String
  name : Option String
  timestamp : Option Int
deriving DecidableEq, Repr

/-- Timeframe filter of the video-analyzer `track_suspect`: each bound is
optional (`"start" in timeframe and timeframe["start"]`, lines 410-414).
`stop` models the Python key `end` (reserved in Lean). -/
structure VATimeframe where
  start : Option Int
  stop : Option Int
deriving DecidableEq, Repr

/-- The tracking-result dict built at lines 505-518.  `behaviorNotes` is
absent until `_analyze_behavior_patterns` first appends to it; the absent
key is modelled as the empty list. -/
structure VATrackingResult where
  id : String
  suspectId : String
  videoId : String
  frameId : String
  timestamp : Int
  location : String
  confidence : ℚ
  boundingBox : List ℚ
  thumbnailUrl : String
  carrying : List String
  activities : List String
  interactions : List String
  behaviorNotes : List String
deriving DecidableEq, Repr

/-- Environment of the video-analyzer `track_suspect`: the file system,
the MongoDB `frames` collection, the external feature-extraction call
(`_get_person_features`), the numeric similarity routine and the `uuid4`
supply.  `_calculate_similarity` is embedded as the oracle `calcSim`
because its numpy internals (L2 normalization by a square-root norm and
NaN propagation on zero vectors) are floating-point behaviour with no
exact rational counterpart; every theorem below holds for an arbitrary
`calcSim`, which only strengthens them.  `uuid k` is the `k`-th value
drawn from `uuid.uuid4()`. -/
structure VAEnv where
  suspectImageExists : String → Bool
  personFeatures : String → List ℚ
  framesColl : List VAFrame
  calcSim : List ℚ → List ℚ → ℚ
  uuid : Nat → String

/-- `video_metadata[video_id]["location"]` (line 511): the metadata dict
is keyed by video id, later entries overwriting earlier ones; every frame
reaching this lookup was gathered from a video present in the dict, so
the `"Unknown"` fallback of the `none` branch is unreachable there (in
Python a miss would raise `KeyError`, swallowed by the outer handler). -/
def lookupLocation (videos : List VideoRec) (vid : String) : String :=
  match videos.reverse.find? (fun v => v.id == vid) with
  | some v => v.location.getD "Unknown"
  | none => "Unknown"

/-- The per-frame timeframe test of lines 416-425: a frame is kept unless
its timestamp is strictly before a given `start` or strictly after a
given `end` — the bounds are inclusive. -/
def timeframeKeep (tf : VATimeframe) (f : VAFrame) : Bool :=
  (match tf.start with
    | none => true
    | some s => !decide (f.timestamp < s)) &&
  (match tf.stop with
    | none => true
    | some e => !decide (e < f.timestamp))

/-- The frame-gathering loop of lines 385-435: for each video, query the
`frames` collection by video id, apply the timeframe filter when one was
supplied, and concatenate (a video with no remaining frames contributes
nothing, matching the `continue` branches). -/
def gatherFrames (env : VAEnv) (videos : List VideoRec)
    (timeframe : Option VATimeframe) : List VAFrame :=
  videos.flatMap (fun video =>
    let frames_list := env.framesColl.filter (fun f => f.videoId == video.id)
    match timeframe with
    | none => frames_list
    | some tf => frames_list.filter (timeframeKeep tf))

/-- Comparison by timestamp for the global frame sort of line 438. -/
def vaFrameLE (a b : VAFrame) : Prop := a.timestamp ≤ b.timestamp

instance : DecidableRel vaFrameLE := fun a b =>
  inferInstanceAs (Decidable (a.timestamp ≤ b.timestamp))

instance : IsTotal VAFrame vaFrameLE :=
  ⟨fun x y => Int.le_total x.timestamp y.timestamp⟩

instance : IsTrans VAFrame vaFrameLE := ⟨fun _ _ _ => Int.le_trans⟩

/-- The tracking-result dict of lines 505-518 for person `p` of `frame`,
with `uuid4` draw number `k`. -/
def mkVAResult (env : VAEnv) (suspect : VASuspect) (videos : List VideoRec)
    (frame : VAFrame) (p : VAPerson) (confidence : ℚ) (k : Nat) :
    VATrackingResult :=
  { id := "track-" ++ env.uuid k
    suspectId := suspect.id
    videoId := frame.videoId
    frameId := frame.id
    timestamp := frame.timestamp
    location := lookupLocation videos frame.videoId
    confidence := confidence
    boundingBox := p.boundingBox
    thumbnailUrl := "/frames/" ++ frame.videoId ++ "/" ++ frame.id ++ ".jpg"
    carrying := p.carrying
    activities := p.activities
    interactions := p.interactions
    behaviorNotes := [] }

/-- The inner `for person in frame["persons"]` loop of
`_process_frames_batch` (lines 493-520): skip persons without features,
compute `confidence = similarity * 100`, and keep the detection iff
`confidence >= confidence_threshold`.  The second component threads the
index of the next `uuid4` draw. -/
def processPersons (env : VAEnv) (suspect : VASuspect)
    (suspect_features : List ℚ) (videos : List VideoRec)
    (confidence_threshold : ℚ) (frame : VAFrame) :
    List VAPerson → Nat → List VATrackingResult × Nat
  | [], k => ([], k)
  | p :: ps, k =>
    if p.features.isEmpty then
      processPersons env suspect suspect_features videos
        confidence_threshold frame ps k
    else
      let confidence := env.calcSim suspect_features p.features * 100
      if confidence_threshold ≤ confidence then
        let r := mkVAResult env suspect videos frame p confidence k
        let rec_rest := processPersons env suspect suspect_features videos
          confidence_threshold frame ps (k + 1)
        (r :: rec_rest.1, rec_rest.2)
      else
        processPersons env suspect suspect_features videos
          confidence_threshold frame ps k

/-- `_process_frames_batch` (`video_analyzer.py` lines 481-522): walk
the frames of one batch, skipping frames without persons, and collect
the above-threshold matches in order. -/
def _process_frames_batch (env : VAEnv) (suspect : VASuspect)
    (suspect_features : List ℚ) (videos : List VideoRec)
    (confidence_threshold : ℚ) :
    List VAFrame → Nat → List VATrackingResult × Nat
  | [], k => ([], k)
  | frame :: rest, k =>
    if frame.persons.isEmpty then
      _process_frames_batch env suspect suspect_features videos
        confidence_threshold rest k
    else
      let hd := processPersons env suspect suspect_features videos
        confidence_threshold frame frame.persons k
      let tl := _process_frames_batch env suspect suspect_features videos
        confidence_threshold rest hd.2
      (hd.1 ++ tl.1, tl.2)

/-- `[all_frames[i:i+batch_size] for i in range(0, len(all_frames),
batch_size)]` (line 451). -/
def chunksOf (n : Nat) (l : List VAFrame) : List (List VAFrame) :=
  if h : n = 0 ∨ l = [] then []
  else l.take n :: chunksOf n (l.drop n)
termination_by l.length
decreasing_by
  push_neg at h
  rw [List.length_drop]
  exact Nat.sub_lt (List.length_pos.2 h.2) (Nat.pos_of_ne_zero h.1)

/-- The `for batch_idx, batch in enumerate(batches)` loop of lines
453-456: process each batch in order and extend the result list. -/
def processBatches (env : VAEnv) (suspect : VASuspect)
    (suspect_features : List ℚ) (videos : List VideoRec)
    (confidence_threshold : ℚ) :
    List (List VAFrame) → Nat → List VATrackingResult × Nat
  | [], k => ([], k)
  | b :: bs, k =>
    let hd := _process_frames_batch env suspect suspect_features videos
      confidence_threshold b k
    let tl := processBatches env suspect suspect_features videos
      confidence_threshold bs hd.2
    (hd.1 ++ tl.1, tl.2)

/-- Lines 445-459 of `track_suspect`: more than 200 frames are processed
in sequential batches of 200, otherwise in a single pass. -/
def batch_stage (env : VAEnv) (suspect : VASuspect)
    (suspect_features : List ℚ) (videos : List VideoRec)
    (confidence_threshold : ℚ) (all_frames : List VAFrame) :
    List VATrackingResult :=
  if 200 < all_frames.length then
    (processBatches env suspect suspect_features videos confidence_threshold
      (chunksOf 200 all_frames) 0).1
  else
    (_process_frames_batch env suspect suspect_features videos
      confidence_threshold all_frames 0).1

/-- `_verify_identity_consistency` (lines 542-585): collects appearance
data for a future multimodal check but returns the input unchanged on
every path. -/
def _verify_identity_consistency (tracking_results : List VATrackingResult) :
    List VATrackingResult :=
  tracking_results

/-- `_detect_appearance_changes` (lines 587-626): groups appearances by
30-minute proximity but discards the grouping and returns the input
unchanged on every path. -/
def _detect_appearance_changes (tracking_results : List VATrackingResult) :
    List VATrackingResult :=
  tracking_results

/-- `_analyze_behavior_patterns` (lines 628-664): counts results per
location and appends a `"Repeated visits to …"` note to every result
whose location occurs more than once; confidence and timestamps are
untouched.  Lists of length at most one are returned unchanged. -/
def _analyze_behavior_patterns (tracking_results : List VATrackingResult) :
    List VATrackingResult :=
  if tracking_results.length ≤ 1 then tracking_results
  else
    tracking_results.map (fun r =>
      if 1 < tracking_results.countP (fun x => x.location == r.location) then
        { r with behaviorNotes :=
            r.behaviorNotes ++ ["Repeated visits to " ++ r.location] }
      else r)

/-- The module-level `track_suspect` of `video_analyzer.py` (lines
346-476): return `[]` if the suspect reference image is missing (lines
371-374); gather the analyzed frames of every supplied video, filtered by
the optional timeframe; sort them globally by timestamp; return `[]` if
none remain; run the (possibly batched) matching stage; then run the
three annotation passes.  The surrounding `try/except` returns `[]` on
any exception; no modelled path raises. -/
def track_suspect (env : VAEnv) (suspect : VASuspect)
    (videos : List VideoRec) (timeframe : Option VATimeframe)
    (confidence_threshold : ℚ) : List VATrackingResult :=
  if env.suspectImageExists suspect.id = false then []
  else
    let suspect_features := env.personFeatures suspect.id
    let all_frames :=
      List.insertionSort vaFrameLE (gatherFrames env videos timeframe)
    if all_frames.isEmpty then []
    else
      _analyze_behavior_patterns
        (_detect_appearance_changes
          (_verify_identity_consistency
            (batch_stage env suspect suspect_features videos
              confidence_threshold all_frames)))

end VideoAnalyzer


/-! ## Knowledge graphs (`video_analyzer.py` / `graph_builder.py`) -/

/-- A knowledge-graph node; `imageUrl` and `timestamp` are present only
on some node kinds. -/
structure GraphNode where
  id : String
  type : String
  label : String
  imageUrl : Option String
  timestamp : Option Int
deriving DecidableEq, Repr

/-- A knowledge-graph edge. -/
structure GraphEdge where
  id : String
  source : String
  target : String
  label : String
  timestamp : Option Int
deriving DecidableEq, Repr

/-- The graph payload `{"nodes": …, "edges": …}`. -/
structure Graph where
  nodes : List GraphNode
  edges : List GraphEdge
deriving DecidableEq, Repr

/-- The mutable state of a graph-building pass: the accumulated node and
edge lists together with the `node_ids` / `edge_ids` dedup sets (modelled
as lists; only membership is used). -/
structure BuildState where
  nodes : List GraphNode
  edges : List GraphEdge
  node_ids : List String
  edge_ids : List String
deriving Repr

/-- `nodes.append(node); node_ids.add(node["id"])`. -/
def addNode (st : BuildState) (n : GraphNode) : BuildState :=
  { st with nodes := st.nodes ++ [n], node_ids := st.node_ids ++ [n.id] }

/-- `edges.append(edge); edge_ids.add(edge["id"])`. -/
def addEdge (st : BuildState) (e : GraphEdge) : BuildState :=
  { st with edges := st.edges ++ [e], edge_ids := st.edge_ids ++ [e.id] }

/-- The empty build state. -/
def emptyBuild : BuildState := ⟨[], [], [], []⟩

/-- `s.replace(" ", "_")` for the single-character pattern used by the
builders, written character-wise so that it evaluates in the kernel. -/
def repSpace (s : String) : String :=
  String.mk (s.toList.map (fun c => if c = ' ' then '_' else c))

/-- `s[-6:]`: the last `n` characters of a Python string slice. -/
def takeLast (s : String) (n : Nat) : String :=
  String.mk (s.toList.drop (s.toList.length - n))

/-- `str.title()` for the space-separated words the builders feed it:
first letter of each word upper-cased, the rest lower-cased. -/
def capWord (w : String) : String :=
  match w.toList with
  | [] => ""
  | c :: cs => String.mk (c.toUpper :: cs.map Char.toLower)

/-- See `capWord`. -/
def titleCase (s : String) : String :=
  String.intercalate " " ((s.splitOn " ").map capWord)

namespace VideoAnalyzer

/-- A suspect record from the `suspects` collection, as read by the
video-analyzer `build_knowledge_graph` (lines 809-817). -/
structure SuspectRec where
  id : String
  name : Option String
  imageUrl : Option String
deriving DecidableEq, Repr

/-- The MongoDB lookups performed by the video-analyzer
`build_knowledge_graph`. -/
structure DBEnv where
  findSuspect : String → Option SuspectRec
  findVideo : String → Option VideoRec

/-- The `for item in result["carrying"]` body of the video-analyzer
`build_knowledge_graph` (lines 865-888): one normalized object node and
one un-timestamp-keyed `carried` edge, each guarded by the corresponding
id set. -/
def carryStep (suspect_id : String) (ts : Int) (st : BuildState)
    (item : String) : BuildState :=
  let object_id := "object-" ++ repSpace item
  let st :=
    if object_id ∈ st.node_ids then st
    else addNode st
      { id := object_id, type := "object", label := titleCase item
        imageUrl := none, timestamp := some ts }
  let carry_edge_id := "edge-" ++ suspect_id ++ "-" ++ object_id
  if carry_edge_id ∈ st.edge_ids then st
  else addEdge st
    { id := carry_edge_id, source := suspect_id, target := object_id
      label := "carried", timestamp := some ts }

/-- The body of the `for result in tracking_results` loop of
`build_knowledge_graph` (lines 825-888): a missing video record skips the
result; otherwise one location node per video (guarded by `node_ids`),
one timestamp-keyed `visited` edge, and then `carryStep` per carried
item. -/
def processResultVA (env : DBEnv) (suspect_id : String) (st : BuildState)
    (r : VATrackingResult) : BuildState :=
  match env.findVideo r.videoId with
  | none => st
  | some video =>
    let location_id := "location-" ++ r.videoId
    let st :=
      if location_id ∈ st.node_ids then st
      else addNode st
        { id := location_id, type := "location"
          label := video.location.getD ("Camera " ++ takeLast r.videoId 6)
          imageUrl := none, timestamp := none }
    let visit_edge_id :=
      "edge-" ++ suspect_id ++ "-" ++ location_id ++ "-" ++ toString r.timestamp
    let st :=
      if visit_edge_id ∈ st.edge_ids then st
      else addEdge st
        { id := visit_edge_id, source := suspect_id, target := location_id
          label := "visited", timestamp := some r.timestamp }
    r.carrying.foldl (carryStep suspect_id r.timestamp) st

/-- `VideoAnalyzer.build_knowledge_graph` (`video_analyzer.py` lines
786-901): empty input gives the empty graph; otherwise a suspect node is
added when the suspect record is found in the database, and every
tracking result contributes location/visited/object/carried entries
guarded by the id sets. -/
def build_knowledge_graph (env : DBEnv)
    (tracking_results : List VATrackingResult) : Graph :=
  match tracking_results with
  | [] => { nodes := [], edges := [] }
  | r0 :: _ =>
    let suspect_id := r0.suspectId
    let init :=
      match env.findSuspect suspect_id with
      | some s => addNode emptyBuild
        { id := suspect_id, type := "suspect"
          label := s.name.getD "Suspect", imageUrl := s.imageUrl
          timestamp := none }
      | none => emptyBuild
    let st := tracking_results.foldl (processResultVA env suspect_id) init
    { nodes := st.nodes, edges := st.edges }

end VideoAnalyzer

namespace GraphBuilder

/-- Python's global random generator, as consumed by
`graph_builder.build_knowledge_graph`: `floats k` is the `k`-th value
returned by `random.random()` (in `[0,1)`) and `picks k` the `k`-th index
drawn internally by `random.choice` (reduced modulo the population size).
The generator is hidden global state in the source; passing it explicitly
makes the dependence visible. -/
structure GBRandom where
  floats : Nat → ℚ
  picks : Nat → Nat

/-- `random.choice(xs)` given the drawn index `i`. -/
def rchoice (xs : List String) (i : Nat) : String :=
  xs.getD (i % xs.length) ""

/-- Counters into the two random streams. -/
structure GBCounters where
  kf : Nat
  kp : Nat
deriving DecidableEq, Repr

/-- The simulated person-interaction block of
`graph_builder.build_knowledge_graph` (lines 81-114) — placeholder
behaviour of the source: with probability 0.3 a random person node and a
random-labelled edge for results with confidence above 80, insertions
guarded by the id sets. -/
def personSim (rng : GBRandom) (suspect_id : String)
    (r : SuspectTracker.STTrackingResult) (st : BuildState)
    (k : GBCounters) : BuildState × GBCounters :=
  if 80 < r.confidence then
    let draw := rng.floats k.kf
    let k := { k with kf := k.kf + 1 }
    if draw < 3 / 10 then
      let person_id := "person-" ++ r.videoId ++ "-" ++ toString r.frame_index
      let node_step : BuildState × GBCounters :=
        if person_id ∈ st.node_ids then (st, k)
        else
          let lbl := rchoice
            ["Security Guard", "Receptionist", "Visitor", "Employee"]
            (rng.picks k.kp)
          (addNode st
            { id := person_id, type := "person", label := lbl
              imageUrl := none, timestamp := some r.timestamp },
           { k with kp := k.kp + 1 })
      let st := node_step.1
      let k := node_step.2
      let person_edge_id := "edge-" ++ suspect_id ++ "-" ++ person_id
      if person_edge_id ∈ st.edge_ids then (st, k)
      else
        let lbl := rchoice ["talked to", "passed by", "interacted with"]
          (rng.picks k.kp)
        (addEdge st
          { id := person_edge_id, source := suspect_id, target := person_id
            label := lbl, timestamp := some r.timestamp },
         { k with kp := k.kp + 1 })
    else (st, k)
  else (st, k)

/-- The simulated object-interaction block of lines 116-149: with
probability 0.2 a random object node and a `used`/`held`/`carried` edge
for results with confidence above 75. -/
def objectSim (rng : GBRandom) (suspect_id : String)
    (r : SuspectTracker.STTrackingResult) (st : BuildState)
    (k : GBCounters) : BuildState × GBCounters :=
  if 75 < r.confidence then
    let draw := rng.floats k.kf
    let k := { k with kf := k.kf + 1 }
    if draw < 2 / 10 then
      let object_id := "object-" ++ r.videoId ++ "-" ++ toString r.frame_index
      let node_step : BuildState × GBCounters :=
        if object_id ∈ st.node_ids then (st, k)
        else
          let lbl := rchoice
            ["Backpack", "Phone", "Keys", "Briefcase", "Coffee Cup"]
            (rng.picks k.kp)
          (addNode st
            { id := object_id, type := "object", label := lbl
              imageUrl := none, timestamp := some r.timestamp },
           { k with kp := k.kp + 1 })
      let st := node_step.1
      let k := node_step.2
      let object_edge_id := "edge-" ++ suspect_id ++ "-" ++ object_id
      if object_edge_id ∈ st.edge_ids then (st, k)
      else
        let lbl := rchoice ["carried", "held", "used"] (rng.picks k.kp)
        (addEdge st
          { id := object_edge_id, source := suspect_id, target := object_id
            label := lbl, timestamp := some r.timestamp },
         { k with kp := k.kp + 1 })
    else (st, k)
  else (st, k)

/-- The body of the `for result in tracking_results` loop of
`graph_builder.build_knowledge_graph`: the location node and `visited`
edge (guarded by the id sets), then the two simulated random blocks. -/
def processResultGB (rng : GBRandom) (suspect_id : String)
    (acc : BuildState × GBCounters)
    (r : SuspectTracker.STTrackingResult) : BuildState × GBCounters :=
  let st := acc.1
  let k := acc.2
  let location_id := "location-" ++ r.videoId
  let st :=
    if location_id ∈ st.node_ids then st
    else addNode st
      { id := location_id, type := "location"
        label := "Camera Location " ++ takeLast r.videoId 6
        imageUrl := none, timestamp := none }
  let visit_edge_id :=
    "edge-" ++ suspect_id ++ "-" ++ location_id ++ "-" ++ toString r.timestamp
  let st :=
    if visit_edge_id ∈ st.edge_ids then st
    else addEdge st
      { id := visit_edge_id, source := suspect_id, target := location_id
        label := "visited", timestamp := some r.timestamp }
  let person_step := personSim rng suspect_id r st k
  objectSim rng suspect_id r person_step.1 person_step.2

/-- `graph_builder.build_knowledge_graph` (`graph_builder.py` lines
10-162): empty input gives the empty graph; otherwise an unconditional
suspect node keyed by the first result's `suspectId`, then the per-result
loop above, consuming Python's global random generator. -/
def build_knowledge_graph (rng : GBRandom)
    (tracking_results : List SuspectTracker.STTrackingResult) : Graph :=
  match tracking_results with
  | [] => { nodes := [], edges := [] }
  | r0 :: _ =>
    let suspect_id := r0.suspectId
    let init := addNode emptyBuild
      { id := suspect_id, type := "suspect", label := "Suspect"
        imageUrl := some ("/suspects/" ++ suspect_id ++ ".jpg")
        timestamp := none }
    let st := (tracking_results.foldl (processResultGB rng suspect_id)
      (init, ⟨0, 0⟩)).1
    { nodes := st.nodes, edges := st.edges }

end GraphBuilder


/-- The dedup invariant of a graph build: the `node_ids` / `edge_ids`
sets mirror the ids of the accumulated nodes/edges, and hold no
duplicates. -/
def BuildInv (st : BuildState) : Prop :=
  st.node_ids = st.nodes.map GraphNode.id ∧
  st.edge_ids = st.edges.map GraphEdge.id ∧
  st.node_ids.Nodup ∧ st.edge_ids.Nodup

/-- Star-shape invariant: every accumulated edge has the suspect as its
source. -/
def EdgeSrc (suspect_id : String) (st : BuildState) : Prop :=
  ∀ e ∈ st.edges, e.source = suspect_id

-- ===DEFS-END===

namespace TimelineGenerator

/-- `mergeInto` never changes the open event's timestamp. -/
theorem mergeInto_timestamp (last e : TimelineEvent) :
    (mergeInto last e).timestamp = last.timestamp := rfl

/-- `mergeInto` never changes the open event's video. -/
theorem mergeInto_videoId (last e : TimelineEvent) :
    (mergeInto last e).videoId = last.videoId := rfl

/-- `mergeLoop` returns a nonempty list whose head agrees with the open
event on timestamp and video (absorption touches neither field). -/
theorem mergeLoop_cons (g : Int) :
    ∀ (rest : List TimelineEvent) (last : TimelineEvent),
      ∃ hd tl, mergeLoop g last rest = hd :: tl ∧
        hd.timestamp = last.timestamp ∧ hd.videoId = last.videoId
  | [], last => ⟨last, [], rfl, rfl, rfl⟩
  | e :: rest, last => by
    by_cases hc : mergeCond g last e
    · obtain ⟨hd, tl, heq, hts, hvid⟩ := mergeLoop_cons g rest (mergeInto last e)
      exact ⟨hd, tl, by simp [mergeLoop, hc, heq], hts, hvid⟩
    · exact ⟨last, mergeLoop g e rest, by simp [mergeLoop, hc], rfl, rfl⟩

/-- Every event in the merged output carries the timestamp of one of the
events it came from. -/
theorem mem_mergeLoop_timestamp (g : Int) :
    ∀ (rest : List TimelineEvent) (last x : TimelineEvent),
      x ∈ mergeLoop g last rest →
        ∃ y ∈ last :: rest, x.timestamp = y.timestamp
  | [], last, x => by
    intro hx
    simp only [mergeLoop, List.mem_singleton] at hx
    exact ⟨last, by simp, by rw [hx]⟩
  | e :: rest, last, x => by
    intro hx
    by_cases hc : mergeCond g last e
    · simp only [mergeLoop, if_pos hc] at hx
      obtain ⟨y, hy, hts⟩ := mem_mergeLoop_timestamp g rest (mergeInto last e) x hx
      rcases List.mem_cons.1 hy with h | h
      · exact ⟨last, by simp, by rw [hts, h, mergeInto_timestamp]⟩
      · exact ⟨y, List.mem_cons_of_mem last (List.mem_cons_of_mem e h), hts⟩
    · simp only [mergeLoop, if_neg hc, List.mem_cons] at hx
      rcases hx with h | h
      · exact ⟨last, by simp, by rw [h]⟩
      · obtain ⟨y, hy, hts⟩ := mem_mergeLoop_timestamp g rest e x h
        exact ⟨y, List.mem_cons_of_mem last hy, hts⟩

/-- The merged output is sorted by timestamp whenever the input run is. -/
theorem mergeLoop_sorted (g : Int) :
    ∀ (rest : List TimelineEvent) (last : TimelineEvent),
      List.Sorted tsLE (last :: rest) →
        List.Sorted tsLE (mergeLoop g last rest)
  | [], last => fun _ => List.sorted_singleton last
  | e :: rest, last => by
    intro h
    rw [List.sorted_cons] at h
    obtain ⟨hlast, htail⟩ := h
    by_cases hc : mergeCond g last e
    · simp only [mergeLoop, if_pos hc]
      apply mergeLoop_sorted g rest (mergeInto last e)
      rw [List.sorted_cons] at htail ⊢
      refine ⟨fun b hb => ?_, htail.2⟩
      have h1 : last.timestamp ≤ e.timestamp := hlast e (List.mem_cons_self e rest)
      have h2 : e.timestamp ≤ b.timestamp := htail.1 b hb
      exact le_trans h1 h2
    · simp only [mergeLoop, if_neg hc]
      rw [List.sorted_cons]
      refine ⟨fun b hb => ?_, mergeLoop_sorted g rest e htail⟩
      obtain ⟨y, hy, hts⟩ := mem_mergeLoop_timestamp g rest e b hb
      show last.timestamp ≤ b.timestamp
      rw [hts]
      exact hlast y hy

/-- Adjacent events of the merged output never satisfy the merge
condition: whenever an event was closed, the gap or the video id broke
the condition, and neither field moves afterwards. -/
theorem mergeLoop_separated (g : Int) :
    ∀ (rest : List TimelineEvent) (last : TimelineEvent),
      List.Sorted tsLE (last :: rest) →
        List.Chain' (fun a b => ¬ mergeCond g a b) (mergeLoop g last rest)
  | [], last => fun _ => List.chain'_singleton last
  | e :: rest, last => by
    intro h
    rw [List.sorted_cons] at h
    obtain ⟨hlast, htail⟩ := h
    by_cases hc : mergeCond g last e
    · simp only [mergeLoop, if_pos hc]
      apply mergeLoop_separated g rest (mergeInto last e)
      rw [List.sorted_cons] at htail ⊢
      refine ⟨fun b hb => ?_, htail.2⟩
      have h1 : last.timestamp ≤ e.timestamp := hlast e (List.mem_cons_self e rest)
      have h2 : e.timestamp ≤ b.timestamp := htail.1 b hb
      exact le_trans h1 h2
    · simp only [mergeLoop, if_neg hc]
      rw [List.chain'_cons']
      refine ⟨fun y hy => ?_, mergeLoop_separated g rest e htail⟩
      obtain ⟨hd, tl, heq, hts, hvid⟩ := mergeLoop_cons g rest e
      rw [heq] at hy
      simp only [List.head?_cons, Option.mem_def, Option.some.injEq] at hy
      subst hy
      intro hcond
      exact hc ⟨by rw [← hts]; exact hcond.1, by rw [← hvid]; exact hcond.2⟩

/-- On a run whose adjacent events all break the merge condition, the
merge pass is the identity. -/
theorem mergeLoop_of_separated (g : Int) :
    ∀ (rest : List TimelineEvent) (last : TimelineEvent),
      List.Chain' (fun a b => ¬ mergeCond g a b) (last :: rest) →
        mergeLoop g last rest = last :: rest
  | [], _ => fun _ => rfl
  | e :: rest, last => by
    intro h
    rw [List.chain'_cons] at h
    simp only [mergeLoop, if_neg h.1]
    rw [mergeLoop_of_separated g rest e h.2]

end TimelineGenerator

namespace TimelineGenerator

/-- The instrumented merge pass and the source merge pass produce the
same events. -/
theorem mergeLoopG_map_fst (g : Int) :
    ∀ (rest : List TimelineEvent) (last : TimelineEvent)
      (grp : List TimelineEvent),
      (mergeLoopG g last grp rest).map Prod.fst = mergeLoop g last rest
  | [], _, _ => rfl
  | e :: rest, last, grp => by
    by_cases hc : mergeCond g last e
    · simp only [mergeLoopG, mergeLoop, if_pos hc]
      exact mergeLoopG_map_fst g rest (mergeInto last e) (grp ++ [e])
    · simp only [mergeLoopG, mergeLoop, if_neg hc, List.map_cons]
      rw [mergeLoopG_map_fst g rest e [e]]

/-- The constituent runs recorded by the instrumented merge pass
partition the input run: concatenated in order they give it back. -/
theorem mergeLoopG_flatten_snd (g : Int) :
    ∀ (rest : List TimelineEvent) (last : TimelineEvent)
      (grp : List TimelineEvent),
      ((mergeLoopG g last grp rest).map Prod.snd).flatten = grp ++ rest
  | [], _, grp => by simp [mergeLoopG]
  | e :: rest, last, grp => by
    by_cases hc : mergeCond g last e
    · simp only [mergeLoopG, if_pos hc]
      rw [mergeLoopG_flatten_snd g rest (mergeInto last e) (grp ++ [e])]
      simp
    · simp only [mergeLoopG, if_neg hc, List.map_cons, List.flatten_cons]
      rw [mergeLoopG_flatten_snd g rest e [e]]
      simp

/-- Every constituent of an output event shares that event's video:
absorption is guarded by equality of video ids, and the guard compares
against the open event, whose video never changes. -/
theorem mergeLoopG_video (g : Int) :
    ∀ (rest : List TimelineEvent) (last : TimelineEvent)
      (grp : List TimelineEvent),
      (∀ c ∈ grp, c.videoId = last.videoId) →
        ∀ p ∈ mergeLoopG g last grp rest, ∀ c ∈ p.2,
          c.videoId = p.1.videoId
  | [], last, grp => by
    intro hgrp p hp c hc
    simp only [mergeLoopG, List.mem_singleton] at hp
    subst hp
    exact hgrp c hc
  | e :: rest, last, grp => by
    intro hgrp p hp c hc
    by_cases hcond : mergeCond g last e
    · simp only [mergeLoopG, if_pos hcond] at hp
      refine mergeLoopG_video g rest (mergeInto last e) (grp ++ [e]) ?_ p hp c hc
      intro c' hc'
      rw [mergeInto_videoId]
      rcases List.mem_append.1 hc' with h | h
      · exact hgrp c' h
      · rw [List.mem_singleton.1 h]
        exact hcond.2
    · simp only [mergeLoopG, if_neg hcond, List.mem_cons] at hp
      rcases hp with h | h
      · subst h
        exact hgrp c hc
      · refine mergeLoopG_video g rest e [e] ?_ p h c hc
        intro c' hc'
        rw [List.mem_singleton.1 hc']

end TimelineGenerator

open TimelineGenerator in
/-- **C4.** The event-merge operation is idempotent: for every list of
timeline events and every fixed `max_gap_seconds`,
`merge_nearby_events(merge_nearby_events(x)) = merge_nearby_events(x)`. -/
theorem merge_nearby_events_idempotent (x : List TimelineEvent) (g : Int) :
    merge_nearby_events (merge_nearby_events x g) g =
      merge_nearby_events x g := by
  by_cases hx : x.isEmpty
  · simp [merge_nearby_events, hx]
  · cases hs : List.insertionSort tsLE x with
    | nil =>
      have hperm := List.perm_insertionSort tsLE x
      rw [hs] at hperm
      have : x = [] := hperm.symm.eq_nil
      rw [this] at hx
      simp at hx
    | cons e rest =>
      have hmerge : merge_nearby_events x g = mergeLoop g e rest := by
        simp [merge_nearby_events, hx, hs]
      have hsorted : List.Sorted tsLE (e :: rest) := by
        have := List.sorted_insertionSort tsLE x
        rwa [hs] at this
      have hout_sorted := mergeLoop_sorted g rest e hsorted
      have hout_chain := mergeLoop_separated g rest e hsorted
      obtain ⟨hd, tl, heq, -, -⟩ := mergeLoop_cons g rest e
      rw [hmerge, heq]
      rw [heq] at hout_sorted hout_chain
      have hsort2 : List.insertionSort tsLE (hd :: tl) = hd :: tl :=
        List.Sorted.insertionSort_eq hout_sorted
      simp only [merge_nearby_events, List.isEmpty_cons, hsort2]
      simpa using mergeLoop_of_separated g tl hd hout_chain

open TimelineGenerator in
/-- **C5.** During merging, an incoming event is absorbed into the current
open event exactly when it has the same `videoId` and its timestamp is
within `max_gap_seconds` of the open event's timestamp; absorption sets
`endTime` to the incoming event's `endTime`, `confidence` to the max of
the two confidences, and appends a time-stamped clause to `description`;
otherwise the two events stay separate. -/
theorem merge_pair_spec (a b : TimelineEvent) (g : Int)
    (hab : a.timestamp ≤ b.timestamp) :
    merge_nearby_events [a, b] g =
      if b.timestamp - a.timestamp ≤ g ∧ b.videoId = a.videoId then
        [{ a with
            endTime := b.endTime
            confidence := max a.confidence b.confidence
            description :=
              a.description ++ " and again at " ++ formatTimeHM b.timestamp }]
      else [a, b] := by
  have hins : List.insertionSort tsLE [a, b] = [a, b] := by
    simp only [List.insertionSort, List.orderedInsert]
    rw [if_pos (show tsLE a b from hab)]
  simp only [merge_nearby_events, List.isEmpty_cons, Bool.false_eq_true,
    if_false, hins]
  rfl

open TimelineGenerator in
/-- Witness for `merge_pair_spec`: two results in the same video 20
seconds apart with `max_gap_seconds = 60` merge into exactly one event
whose `endTime` equals the later result's `endTime` (25). -/
theorem merge_pair_spec_witness :
    merge_nearby_events
      [⟨"e1", "s1", "vid-A", 0, 85, "t1", "c1", "seen", 0, 5⟩,
       ⟨"e2", "s1", "vid-A", 20, 72, "t2", "c2", "seen2", 20, 25⟩] 60 =
      [⟨"e1", "s1", "vid-A", 0, 85, "t1", "c1",
        "seen and again at 12:00 AM", 0, 25⟩] :=
  (merge_pair_spec _ _ 60 (by decide)).trans (by decide)

open TimelineGenerator in
/-- **C6.** The merge operation never combines events from two different
`videoId`s into one output event: the instrumented merge pass computes the
same output events (first conjunct), its recorded constituent runs are a
partition of the sorted input into consecutive runs (second conjunct), and
every constituent of an output event shares that event's `videoId` (third
conjunct) — regardless of how small the time gap between events of
different videos is. -/
theorem merge_never_mixes_videos (x : List TimelineEvent) (g : Int) :
    ((merge_grouped x g).map Prod.fst = merge_nearby_events x g) ∧
    (((merge_grouped x g).map Prod.snd).flatten =
      List.insertionSort tsLE x) ∧
    (∀ p ∈ merge_grouped x g, ∀ c ∈ p.2, c.videoId = p.1.videoId) := by
  by_cases hx : x.isEmpty
  · have hnil : x = [] := by cases x <;> simp_all
    subst hnil
    refine ⟨rfl, rfl, ?_⟩
    intro p hp
    simp [merge_grouped] at hp
  · cases hs : List.insertionSort tsLE x with
    | nil =>
      have hperm := List.perm_insertionSort tsLE x
      rw [hs] at hperm
      have hnil : x = [] := hperm.symm.eq_nil
      rw [hnil] at hx
      simp at hx
    | cons e rest =>
      have hg : merge_grouped x g = mergeLoopG g e [e] rest := by
        simp [merge_grouped, hx, hs]
      have hm : merge_nearby_events x g = mergeLoop g e rest := by
        simp [merge_nearby_events, hx, hs]
      refine ⟨?_, ?_, ?_⟩
      · rw [hg, hm]
        exact mergeLoopG_map_fst g rest e [e]
      · rw [hg, mergeLoopG_flatten_snd g rest e [e]]
        rfl
      · intro p hp c hc
        rw [hg] at hp
        refine mergeLoopG_video g rest e [e] ?_ p hp c hc
        intro c' hc'
        rw [List.mem_singleton.1 hc']

open TimelineGenerator in
/-- Witness for `merge_never_mixes_videos`: two events in different
videos only one second apart (gap 60) stay in separate groups, and the
constituent of the first group shares its video id. -/
theorem merge_never_mixes_videos_witness :
    (⟨"e1", "s1", "vid-A", 0, 85, "t1", "c1", "d1", 0, 5⟩ :
        TimelineEvent).videoId =
      ((⟨"e1", "s1", "vid-A", 0, 85, "t1", "c1", "d1", 0, 5⟩ : TimelineEvent),
        [(⟨"e1", "s1", "vid-A", 0, 85, "t1", "c1", "d1", 0, 5⟩ :
          TimelineEvent)]).1.videoId :=
  (merge_never_mixes_videos
      [⟨"e1", "s1", "vid-A", 0, 85, "t1", "c1", "d1", 0, 5⟩,
       ⟨"e2", "s1", "vid-B", 1, 72, "t2", "c2", "d2", 1, 6⟩] 60).2.2
    _ (by decide) _ (by decide)

/-- **C7 (counterexample).** `compare_embeddings` on two zero-norm
vectors does not fail with any error: it returns the ordinary clamped
value `0`, refuting the claim that a zero-norm input fails with
InvalidArgument. -/
theorem compare_embeddings_zero_norm_counterexample :
    SuspectTracker.compare_embeddings [0, 0] [0, 0] = .ok 0 := by
  norm_num [SuspectTracker.compare_embeddings, np_dot, dotList]

/-- **C7 (amended).** The feature-similarity operation fails — with the
`ValueError` numpy raises from the dot product — exactly when the two
input vectors have different lengths; a zero-norm vector is *not*
rejected; every successful result is clamped into [0, 1]. -/
theorem compare_embeddings_spec (e1 e2 : List ℚ) :
    (e1.length ≠ e2.length →
      SuspectTracker.compare_embeddings e1 e2 = .error .valueError) ∧
    (e1.length = e2.length →
      ∃ q, SuspectTracker.compare_embeddings e1 e2 = .ok q ∧
        0 ≤ q ∧ q ≤ 1) := by
  constructor
  · intro h
    simp [SuspectTracker.compare_embeddings, np_dot, h]
  · intro h
    refine ⟨max 0 (min 1 (dotList e1 e2)), ?_, le_max_left _ _,
      max_le (by norm_num) (min_le_left _ _)⟩
    simp [SuspectTracker.compare_embeddings, np_dot, h]

/-- Witness for `compare_embeddings_spec`: vectors of lengths 1 and 2
yield the error; two length-1 vectors yield a clamped value. -/
theorem compare_embeddings_spec_witness :
    (SuspectTracker.compare_embeddings [1] [1, 2] = .error .valueError) ∧
    (∃ q, SuspectTracker.compare_embeddings [1] [1] = .ok q ∧
      0 ≤ q ∧ q ≤ 1) :=
  ⟨(compare_embeddings_spec [1] [1, 2]).1 (by decide),
   (compare_embeddings_spec [1] [1]).2 (by decide)⟩

/-- **C3 (counterexample).** `track_suspect` does not fail when the
suspect's reference image is missing, nor when the video list is empty:
in both cases it returns an ordinary empty result list (`.ok []`), never
a NotFound or InvalidArgument error. -/
theorem track_suspect_error_modes_counterexample :
    (SuspectTracker.track_suspect
      ⟨fun _ => false, [1], fun _ => [], fun _ _ => [], fun _ _ _ => []⟩
      ⟨"s1", "/suspects/s1.jpg"⟩ [⟨"v1", 0⟩] none = .ok []) ∧
    (SuspectTracker.track_suspect
      ⟨fun _ => true, [1], fun _ => [], fun _ _ => [], fun _ _ _ => []⟩
      ⟨"s1", "/suspects/s1.jpg"⟩ [] none = .ok []) :=
  ⟨rfl, rfl⟩

/-- **C3 (amended).** Both `track_suspect` implementations return an
ordinary empty result list — not an error — when the suspect's reference
image is missing and when the supplied video list is empty. -/
theorem track_suspect_missing_inputs_give_empty :
    (∀ (env : SuspectTracker.STEnv) (s : SuspectTracker.STSuspect)
        (videos : List SuspectTracker.STVideo)
        (tf : Option SuspectTracker.STTimeframe),
      env.fileExists (SuspectTracker.suspectImagePath s) = false →
        SuspectTracker.track_suspect env s videos tf = .ok []) ∧
    (∀ (env : SuspectTracker.STEnv) (s : SuspectTracker.STSuspect)
        (tf : Option SuspectTracker.STTimeframe),
      SuspectTracker.track_suspect env s [] tf = .ok []) ∧
    (∀ (envV : VideoAnalyzer.VAEnv) (s : VideoAnalyzer.VASuspect)
        (videos : List VideoAnalyzer.VideoRec)
        (tf : Option VideoAnalyzer.VATimeframe) (thr : ℚ),
      envV.suspectImageExists s.id = false →
        VideoAnalyzer.track_suspect envV s videos tf thr = []) ∧
    (∀ (envV : VideoAnalyzer.VAEnv) (s : VideoAnalyzer.VASuspect)
        (tf : Option VideoAnalyzer.VATimeframe) (thr : ℚ),
      VideoAnalyzer.track_suspect envV s [] tf thr = []) := by
  refine ⟨?_, ?_, ?_, ?_⟩
  · intro env s videos tf h
    simp [SuspectTracker.track_suspect, h]
  · intro env s tf
    by_cases h : env.fileExists (SuspectTracker.suspectImagePath s) = false
    · simp [SuspectTracker.track_suspect, h]
    · cases tf <;>
        simp [SuspectTracker.track_suspect, h, SuspectTracker.flatMapE,
          List.insertionSort]
  · intro envV s videos tf thr h
    simp [VideoAnalyzer.track_suspect, h]
  · intro envV s tf thr
    by_cases h : envV.suspectImageExists s.id = false
    · simp [VideoAnalyzer.track_suspect, h]
    · simp [VideoAnalyzer.track_suspect, h, VideoAnalyzer.gatherFrames,
        List.insertionSort]

/-- Witness for `track_suspect_missing_inputs_give_empty` at concrete
inputs: a file system without the reference image, and empty video
lists. -/
theorem track_suspect_missing_inputs_witness :
    (SuspectTracker.track_suspect
      ⟨fun _ => false, [2], fun _ => [], fun _ _ => [], fun _ _ _ => []⟩
      ⟨"s2", "/suspects/s2.jpg"⟩ [⟨"v2", 5⟩] none = .ok []) ∧
    (SuspectTracker.track_suspect
      ⟨fun _ => true, [2], fun _ => [], fun _ _ => [], fun _ _ _ => []⟩
      ⟨"s2", "/suspects/s2.jpg"⟩ [] none = .ok []) ∧
    (VideoAnalyzer.track_suspect
      ⟨fun _ => false, fun _ => [], [], fun _ _ => 0, fun _ => "u"⟩
      ⟨"s2"⟩ [⟨"v2", none, none, none⟩] none 70 = []) ∧
    (VideoAnalyzer.track_suspect
      ⟨fun _ => true, fun _ => [], [], fun _ _ => 0, fun _ => "u"⟩
      ⟨"s2"⟩ [] none 70 = []) :=
  ⟨track_suspect_missing_inputs_give_empty.1 _ _ _ _ rfl,
   track_suspect_missing_inputs_give_empty.2.1 _ _ _,
   track_suspect_missing_inputs_give_empty.2.2.1 _ _ _ _ _ rfl,
   track_suspect_missing_inputs_give_empty.2.2.2 _ _ _ _⟩

/-- `addNode` preserves the dedup invariant when the inserted id is
fresh. -/
theorem addNode_inv {st : BuildState} {n : GraphNode} (h : BuildInv st)
    (hn : n.id ∉ st.node_ids) : BuildInv (addNode st n) := by
  obtain ⟨h1, h2, h3, h4⟩ := h
  refine ⟨?_, h2, ?_, h4⟩
  · simp [addNode, h1]
  · simp only [addNode, List.nodup_append, List.nodup_singleton]
    exact ⟨h3, trivial, by simpa [List.disjoint_singleton] using hn⟩

/-- `addEdge` preserves the dedup invariant when the inserted id is
fresh. -/
theorem addEdge_inv {st : BuildState} {e : GraphEdge} (h : BuildInv st)
    (he : e.id ∉ st.edge_ids) : BuildInv (addEdge st e) := by
  obtain ⟨h1, h2, h3, h4⟩ := h
  refine ⟨h1, ?_, h3, ?_⟩
  · simp [addEdge, h2]
  · simp only [addEdge, List.nodup_append, List.nodup_singleton]
    exact ⟨h4, trivial, by simpa [List.disjoint_singleton] using he⟩

/-- `addNode` leaves the edge list unchanged. -/
theorem addNode_edges (st : BuildState) (n : GraphNode) :
    (addNode st n).edges = st.edges := rfl

/-- `addEdge` preserves the star-shape invariant when the inserted edge
points out of the suspect. -/
theorem addEdge_src {sid : String} {st : BuildState} {e : GraphEdge}
    (h : EdgeSrc sid st) (he : e.source = sid) :
    EdgeSrc sid (addEdge st e) := by
  intro x hx
  rcases List.mem_append.1 hx with hx | hx
  · exact h x hx
  · rw [List.mem_singleton.1 hx]
    exact he

/-- A guarded node insertion (`if node_id not in node_ids: append`)
preserves the dedup invariant. -/
theorem guardNode_inv {st : BuildState} {n : GraphNode} {i : String}
    (hi : n.id = i) (h : BuildInv st) :
    BuildInv (if i ∈ st.node_ids then st else addNode st n) := by
  split
  · exact h
  · refine addNode_inv h ?_
    rw [hi]
    assumption

/-- A guarded edge insertion preserves the dedup invariant. -/
theorem guardEdge_inv {st : BuildState} {e : GraphEdge} {i : String}
    (hi : e.id = i) (h : BuildInv st) :
    BuildInv (if i ∈ st.edge_ids then st else addEdge st e) := by
  split
  · exact h
  · refine addEdge_inv h ?_
    rw [hi]
    assumption

/-- A guarded node insertion preserves the star-shape invariant. -/
theorem guardNode_src {sid : String} {st : BuildState} {n : GraphNode}
    {i : String} (h : EdgeSrc sid st) :
    EdgeSrc sid (if i ∈ st.node_ids then st else addNode st n) := by
  split
  · exact h
  · intro x hx
    rw [addNode_edges] at hx
    exact h x hx

/-- A guarded edge insertion preserves the star-shape invariant when the
edge points out of the suspect. -/
theorem guardEdge_src {sid : String} {st : BuildState} {e : GraphEdge}
    {i : String} (h : EdgeSrc sid st) (he : e.source = sid) :
    EdgeSrc sid (if i ∈ st.edge_ids then st else addEdge st e) := by
  split
  · exact h
  · exact addEdge_src h he

namespace VideoAnalyzer

/-- `carryStep` preserves the dedup invariant. -/
theorem carryStep_inv (sid : String) (ts : Int) (item : String)
    {st : BuildState} (h : BuildInv st) :
    BuildInv (carryStep sid ts st item) := by
  unfold carryStep
  exact guardEdge_inv rfl (guardNode_inv rfl h)

/-- `carryStep` preserves the star-shape invariant. -/
theorem carryStep_src (sid : String) (ts : Int) (item : String)
    {st : BuildState} (h : EdgeSrc sid st) :
    EdgeSrc sid (carryStep sid ts st item) := by
  unfold carryStep
  exact guardEdge_src (guardNode_src h) rfl

/-- The carry fold preserves the dedup invariant. -/
theorem carryFold_inv (sid : String) (ts : Int) :
    ∀ (items : List String) (st : BuildState), BuildInv st →
      BuildInv (items.foldl (carryStep sid ts) st)
  | [], _, h => h
  | item :: items, st, h =>
    carryFold_inv sid ts items _ (carryStep_inv sid ts item h)

/-- The carry fold preserves the star-shape invariant. -/
theorem carryFold_src (sid : String) (ts : Int) :
    ∀ (items : List String) (st : BuildState), EdgeSrc sid st →
      EdgeSrc sid (items.foldl (carryStep sid ts) st)
  | [], _, h => h
  | item :: items, st, h =>
    carryFold_src sid ts items _ (carryStep_src sid ts item h)

/-- `processResultVA` preserves the dedup invariant. -/
theorem processResultVA_inv (env : DBEnv) (sid : String)
    (r : VATrackingResult) {st : BuildState} (h : BuildInv st) :
    BuildInv (processResultVA env sid st r) := by
  unfold processResultVA
  cases env.findVideo r.videoId with
  | none => exact h
  | some video =>
    exact carryFold_inv sid r.timestamp r.carrying _
      (guardEdge_inv rfl (guardNode_inv rfl h))

/-- `processResultVA` preserves the star-shape invariant. -/
theorem processResultVA_src (env : DBEnv) (sid : String)
    (r : VATrackingResult) {st : BuildState} (h : EdgeSrc sid st) :
    EdgeSrc sid (processResultVA env sid st r) := by
  unfold processResultVA
  cases env.findVideo r.videoId with
  | none => exact h
  | some video =>
    exact carryFold_src sid r.timestamp r.carrying _
      (guardEdge_src (guardNode_src h) rfl)

end VideoAnalyzer

namespace GraphBuilder

/-- The simulated person block preserves the dedup invariant (whatever
the random draws). -/
theorem personSim_inv (rng : GBRandom) (sid : String)
    (r : SuspectTracker.STTrackingResult) {st : BuildState}
    (k : GBCounters) (h : BuildInv st) :
    BuildInv (personSim rng sid r st k).1 := by
  unfold personSim
  simp only [apply_ite Prod.fst]
  split
  · split
    · exact guardEdge_inv rfl (guardNode_inv rfl h)
    · exact h
  · exact h

/-- The simulated object block preserves the dedup invariant. -/
theorem objectSim_inv (rng : GBRandom) (sid : String)
    (r : SuspectTracker.STTrackingResult) {st : BuildState}
    (k : GBCounters) (h : BuildInv st) :
    BuildInv (objectSim rng sid r st k).1 := by
  unfold objectSim
  simp only [apply_ite Prod.fst]
  split
  · split
    · exact guardEdge_inv rfl (guardNode_inv rfl h)
    · exact h
  · exact h

/-- The simulated person block preserves the star-shape invariant. -/
theorem personSim_src (rng : GBRandom) (sid : String)
    (r : SuspectTracker.STTrackingResult) {st : BuildState}
    (k : GBCounters) (h : EdgeSrc sid st) :
    EdgeSrc sid (personSim rng sid r st k).1 := by
  unfold personSim
  simp only [apply_ite Prod.fst]
  split
  · split
    · exact guardEdge_src (guardNode_src h) rfl
    · exact h
  · exact h

/-- The simulated object block preserves the star-shape invariant. -/
theorem objectSim_src (rng : GBRandom) (sid : String)
    (r : SuspectTracker.STTrackingResult) {st : BuildState}
    (k : GBCounters) (h : EdgeSrc sid st) :
    EdgeSrc sid (objectSim rng sid r st k).1 := by
  unfold objectSim
  simp only [apply_ite Prod.fst]
  split
  · split
    · exact guardEdge_src (guardNode_src h) rfl
    · exact h
  · exact h

/-- One loop iteration of the graph_builder build preserves the dedup
invariant. -/
theorem processResultGB_inv (rng : GBRandom) (sid : String)
    (r : SuspectTracker.STTrackingResult) {acc : BuildState × GBCounters}
    (h : BuildInv acc.1) :
    BuildInv (processResultGB rng sid acc r).1 := by
  unfold processResultGB
  exact objectSim_inv _ _ _ _
    (personSim_inv _ _ _ _ (guardEdge_inv rfl (guardNode_inv rfl h)))

/-- One loop iteration of the graph_builder build preserves the
star-shape invariant. -/
theorem processResultGB_src (rng : GBRandom) (sid : String)
    (r : SuspectTracker.STTrackingResult) {acc : BuildState × GBCounters}
    (h : EdgeSrc sid acc.1) :
    EdgeSrc sid (processResultGB rng sid acc r).1 := by
  unfold processResultGB
  exact objectSim_src _ _ _ _
    (personSim_src _ _ _ _ (guardEdge_src (guardNode_src h) rfl))

/-- The graph_builder result fold preserves the dedup invariant. -/
theorem foldGB_inv (rng : GBRandom) (sid : String) :
    ∀ (rs : List SuspectTracker.STTrackingResult)
      (acc : BuildState × GBCounters), BuildInv acc.1 →
        BuildInv (rs.foldl (processResultGB rng sid) acc).1
  | [], _, h => h
  | r :: rs, acc, h =>
    foldGB_inv rng sid rs _ (processResultGB_inv rng sid r h)

/-- The graph_builder result fold preserves the star-shape invariant. -/
theorem foldGB_src (rng : GBRandom) (sid : String) :
    ∀ (rs : List SuspectTracker.STTrackingResult)
      (acc : BuildState × GBCounters), EdgeSrc sid acc.1 →
        EdgeSrc sid (rs.foldl (processResultGB rng sid) acc).1
  | [], _, h => h
  | r :: rs, acc, h =>
    foldGB_src rng sid rs _ (processResultGB_src rng sid r h)

end GraphBuilder

namespace VideoAnalyzer

/-- The video-analyzer result fold preserves the dedup invariant. -/
theorem foldVA_inv (env : DBEnv) (sid : String) :
    ∀ (rs : List VATrackingResult) (st : BuildState), BuildInv st →
      BuildInv (rs.foldl (processResultVA env sid) st)
  | [], _, h => h
  | r :: rs, st, h =>
    foldVA_inv env sid rs _ (processResultVA_inv env sid r h)

/-- The video-analyzer result fold preserves the star-shape invariant. -/
theorem foldVA_src (env : DBEnv) (sid : String) :
    ∀ (rs : List VATrackingResult) (st : BuildState), EdgeSrc sid st →
      EdgeSrc sid (rs.foldl (processResultVA env sid) st)
  | [], _, h => h
  | r :: rs, st, h =>
    foldVA_src env sid rs _ (processResultVA_src env sid r h)

end VideoAnalyzer

/-- The empty build state satisfies the dedup invariant. -/
theorem emptyBuild_inv : BuildInv emptyBuild :=
  ⟨rfl, rfl, List.nodup_nil, List.nodup_nil⟩

/-- The empty build state satisfies the star-shape invariant for any
suspect. -/
theorem emptyBuild_src (sid : String) : EdgeSrc sid emptyBuild :=
  fun _ hx => absurd hx (List.not_mem_nil _)

/-- **C2 (counterexample).** `graph_builder.build_knowledge_graph` is not
a deterministic map of its tracking-result input: two calls on the same
single-result list (confidence 85) that consume different values from
Python's global random generator return node sets of different sizes (4
nodes — suspect, location and a simulated person and object — versus 2). -/
theorem build_knowledge_graph_random_counterexample :
    ((GraphBuilder.build_knowledge_graph ⟨fun _ => 0, fun _ => 0⟩
        [⟨"e1", "s1", "vid001", 0, 85, 0, [], 0, 5⟩]).nodes.length = 4) ∧
    ((GraphBuilder.build_knowledge_graph ⟨fun _ => 1, fun _ => 0⟩
        [⟨"e1", "s1", "vid001", 0, 85, 0, [], 0, 5⟩]).nodes.length = 2) := by
  have p1 : (0 : ℚ) < 3 / 10 := by norm_num
  have p2 : ¬ ((1 : ℚ) < 3 / 10) := by norm_num
  have p3 : (0 : ℚ) < 2 / 10 := by norm_num
  have p4 : ¬ ((1 : ℚ) < 2 / 10) := by norm_num
  constructor <;>
    simp +decide [GraphBuilder.build_knowledge_graph,
      GraphBuilder.processResultGB, GraphBuilder.personSim,
      GraphBuilder.objectSim, GraphBuilder.rchoice, addNode, addEdge,
      emptyBuild, takeLast, p1, p2, p3, p4]

/-- **C2 (amended).** Both knowledge-graph builders never insert a node
or edge whose id was already inserted (the final node/edge id lists are
duplicate-free), and the video-analyzer builder is a deterministic map of
its input (it is a pure function of the database environment and the
result list); the graph_builder variant is deterministic only once the
consumed random draws are fixed — with different draws the sizes can
differ, see the counterexample. -/
theorem build_knowledge_graph_dedup :
    (∀ (env : VideoAnalyzer.DBEnv)
        (rs : List VideoAnalyzer.VATrackingResult),
      ((VideoAnalyzer.build_knowledge_graph env rs).nodes.map
        GraphNode.id).Nodup ∧
      ((VideoAnalyzer.build_knowledge_graph env rs).edges.map
        GraphEdge.id).Nodup) ∧
    (∀ (rng : GraphBuilder.GBRandom)
        (rs : List SuspectTracker.STTrackingResult),
      ((GraphBuilder.build_knowledge_graph rng rs).nodes.map
        GraphNode.id).Nodup ∧
      ((GraphBuilder.build_knowledge_graph rng rs).edges.map
        GraphEdge.id).Nodup) := by
  constructor
  · intro env rs
    cases rs with
    | nil => exact ⟨List.nodup_nil, List.nodup_nil⟩
    | cons r0 rest =>
      have hinit : BuildInv
          (match env.findSuspect r0.suspectId with
            | some s => addNode emptyBuild
              { id := r0.suspectId, type := "suspect"
                label := s.name.getD "Suspect", imageUrl := s.imageUrl
                timestamp := none }
            | none => emptyBuild) := by
        cases env.findSuspect r0.suspectId with
        | none => exact emptyBuild_inv
        | some s =>
          exact addNode_inv emptyBuild_inv (List.not_mem_nil _)
      have h := VideoAnalyzer.foldVA_inv env r0.suspectId (r0 :: rest) _ hinit
      obtain ⟨h1, h2, h3, h4⟩ := h
      constructor
      · rw [VideoAnalyzer.build_knowledge_graph]
        rw [h1] at h3
        exact h3
      · rw [VideoAnalyzer.build_knowledge_graph]
        rw [h2] at h4
        exact h4
  · intro rng rs
    cases rs with
    | nil => exact ⟨List.nodup_nil, List.nodup_nil⟩
    | cons r0 rest =>
      have hinit : BuildInv (addNode emptyBuild
          { id := r0.suspectId, type := "suspect", label := "Suspect"
            imageUrl := some ("/suspects/" ++ r0.suspectId ++ ".jpg")
            timestamp := none }) :=
        addNode_inv emptyBuild_inv (List.not_mem_nil _)
      have h := GraphBuilder.foldGB_inv rng r0.suspectId (r0 :: rest)
        (_, ⟨0, 0⟩) hinit
      obtain ⟨h1, h2, h3, h4⟩ := h
      constructor
      · rw [GraphBuilder.build_knowledge_graph]
        rw [h1] at h3
        exact h3
      · rw [GraphBuilder.build_knowledge_graph]
        rw [h2] at h4
        exact h4

/-- **C10.** Every edge produced by either knowledge-graph builder has
its source equal to the suspect id taken from the first tracking result:
the graph is a star centred on the suspect node, and no edge connects two
non-suspect nodes. -/
theorem build_knowledge_graph_star :
    (∀ (env : VideoAnalyzer.DBEnv)
        (rs : List VideoAnalyzer.VATrackingResult)
        (r0 : VideoAnalyzer.VATrackingResult), rs.head? = some r0 →
      ∀ e ∈ (VideoAnalyzer.build_knowledge_graph env rs).edges,
        e.source = r0.suspectId) ∧
    (∀ (rng : GraphBuilder.GBRandom)
        (rs : List SuspectTracker.STTrackingResult)
        (r0 : SuspectTracker.STTrackingResult), rs.head? = some r0 →
      ∀ e ∈ (GraphBuilder.build_knowledge_graph rng rs).edges,
        e.source = r0.suspectId) := by
  constructor
  · intro env rs r0 h0
    cases rs with
    | nil => simp at h0
    | cons r0' rest =>
      rw [List.head?_cons, Option.some.injEq] at h0
      subst h0
      have hinit : EdgeSrc r0'.suspectId
          (match env.findSuspect r0'.suspectId with
            | some s => addNode emptyBuild
              { id := r0'.suspectId, type := "suspect"
                label := s.name.getD "Suspect", imageUrl := s.imageUrl
                timestamp := none }
            | none => emptyBuild) := by
        cases env.findSuspect r0'.suspectId with
        | none => exact emptyBuild_src _
        | some s =>
          intro x hx
          rw [addNode_edges] at hx
          exact absurd hx (List.not_mem_nil _)
      have h := VideoAnalyzer.foldVA_src env r0'.suspectId
        (r0' :: rest) _ hinit
      intro e he
      exact h e he
  · intro rng rs r0 h0
    cases rs with
    | nil => simp at h0
    | cons r0' rest =>
      rw [List.head?_cons, Option.some.injEq] at h0
      subst h0
      have hinit : EdgeSrc r0'.suspectId (addNode emptyBuild
          { id := r0'.suspectId, type := "suspect", label := "Suspect"
            imageUrl := some ("/suspects/" ++ r0'.suspectId ++ ".jpg")
            timestamp := none }) := by
        intro x hx
        rw [addNode_edges] at hx
        exact absurd hx (List.not_mem_nil _)
      have h := GraphBuilder.foldGB_src rng r0'.suspectId
        (r0' :: rest) (_, ⟨0, 0⟩) hinit
      intro e he
      exact h e he

/-- Witness for `build_knowledge_graph_star`: on one concrete tracking
result, the produced `visited` edge has the suspect as its source. -/
theorem build_knowledge_graph_star_witness :
    (⟨"edge-s1-location-v1-0", "s1", "location-v1", "visited",
        some 0⟩ : GraphEdge).source =
      (⟨"t1", "s1", "v1", "f1", 0, "L", 85, [], "u", [], [], [],
        []⟩ : VideoAnalyzer.VATrackingResult).suspectId :=
  build_knowledge_graph_star.1
    ⟨fun _ => some ⟨"s1", none, none⟩,
     fun _ => some ⟨"v1", none, none, none⟩⟩
    [⟨"t1", "s1", "v1", "f1", 0, "L", 85, [], "u", [], [], [], []⟩]
    _ rfl _ (by decide)

namespace VideoAnalyzer

/-- Processing concatenated frame lists equals processing the pieces in
sequence, threading the uuid counter. -/
theorem pfb_append (env : VAEnv) (s : VASuspect) (sf : List ℚ)
    (videos : List VideoRec) (thr : ℚ) :
    ∀ (l1 l2 : List VAFrame) (k : Nat),
      _process_frames_batch env s sf videos thr (l1 ++ l2) k =
        ((_process_frames_batch env s sf videos thr l1 k).1 ++
          (_process_frames_batch env s sf videos thr l2
            (_process_frames_batch env s sf videos thr l1 k).2).1,
         (_process_frames_batch env s sf videos thr l2
            (_process_frames_batch env s sf videos thr l1 k).2).2)
  | [], l2, k => by simp [_process_frames_batch]
  | f :: l1, l2, k => by
    by_cases hp : f.persons.isEmpty
    · simp only [List.cons_append, _process_frames_batch, if_pos hp,
        List.append_eq]
      exact pfb_append env s sf videos thr l1 l2 k
    · simp only [List.cons_append, _process_frames_batch, if_neg hp,
        List.append_eq]
      rw [pfb_append env s sf videos thr l1 l2]
      simp [List.append_assoc]

/-- The batch list produced by the slicing loop concatenates back to the
original frame list: batch boundaries split the frame list, never a
frame. -/
theorem chunksOf_flatten (n : Nat) (hn : 0 < n) :
    ∀ (N : Nat) (l : List VAFrame), l.length ≤ N →
      (chunksOf n l).flatten = l := by
  intro N
  induction N with
  | zero =>
    intro l hl
    have hnil : l = [] := List.eq_nil_of_length_eq_zero (Nat.le_zero.1 hl)
    subst hnil
    rw [chunksOf]
    simp
  | succ N ih =>
    intro l hl
    by_cases hnil : l = []
    · subst hnil
      rw [chunksOf]
      simp
    · rw [chunksOf, dif_neg (by push_neg; exact ⟨Nat.pos_iff_ne_zero.1 hn, hnil⟩)]
      rw [List.flatten_cons]
      rw [ih (l.drop n) (by rw [List.length_drop]; omega)]
      exact List.take_append_drop n l

/-- Batched processing of the slices equals one single pass. -/
theorem processBatches_chunksOf (env : VAEnv) (s : VASuspect) (sf : List ℚ)
    (videos : List VideoRec) (thr : ℚ) (n : Nat) (hn : 0 < n) :
    ∀ (N : Nat) (l : List VAFrame), l.length ≤ N → ∀ (k : Nat),
      processBatches env s sf videos thr (chunksOf n l) k =
        _process_frames_batch env s sf videos thr l k := by
  intro N
  induction N with
  | zero =>
    intro l hl k
    have hnil : l = [] := List.eq_nil_of_length_eq_zero (Nat.le_zero.1 hl)
    subst hnil
    rw [chunksOf]
    simp [processBatches, _process_frames_batch]
  | succ N ih =>
    intro l hl k
    by_cases hnil : l = []
    · subst hnil
      rw [chunksOf]
      simp [processBatches, _process_frames_batch]
    · rw [chunksOf, dif_neg (by push_neg; exact ⟨Nat.pos_iff_ne_zero.1 hn, hnil⟩)]
      simp only [processBatches]
      rw [ih (l.drop n) (by rw [List.length_drop]; omega)]
      rw [← pfb_append env s sf videos thr (l.take n) (l.drop n) k]
      rw [List.take_append_drop]

/-- The batching stage of `track_suspect` equals the single pass on the
whole frame list. -/
theorem batch_stage_eq (env : VAEnv) (s : VASuspect) (sf : List ℚ)
    (videos : List VideoRec) (thr : ℚ) (frames : List VAFrame) :
    batch_stage env s sf videos thr frames =
      (_process_frames_batch env s sf videos thr frames 0).1 := by
  unfold batch_stage
  split
  · rw [processBatches_chunksOf env s sf videos thr 200 (by norm_num)
      frames.length frames (le_refl _) 0]
  · rfl

end VideoAnalyzer

/-- **C8.** Batching is observationally invisible: the batch stage of
`track_suspect` (200-frame slices processed sequentially, per-batch
results concatenated) returns exactly the single-pass result list, in the
same order and with the same uuid draws, for every frame sequence,
suspect, feature vector, similarity function and threshold; and the
slices concatenate back to the original frame list, so batch boundaries
never split one frame's detections. -/
theorem batching_invisible (env : VideoAnalyzer.VAEnv)
    (s : VideoAnalyzer.VASuspect) (sf : List ℚ)
    (videos : List VideoAnalyzer.VideoRec) (thr : ℚ)
    (frames : List VideoAnalyzer.VAFrame) :
    VideoAnalyzer.batch_stage env s sf videos thr frames =
      (VideoAnalyzer._process_frames_batch env s sf videos thr
        frames 0).1 ∧
    (VideoAnalyzer.chunksOf 200 frames).flatten = frames :=
  ⟨VideoAnalyzer.batch_stage_eq env s sf videos thr frames,
   VideoAnalyzer.chunksOf_flatten 200 (by norm_num) frames.length frames
     (le_refl _)⟩

namespace VideoAnalyzer

/-- Every result the person loop emits passes the confidence threshold
and carries its frame's timestamp. -/
theorem processPersons_mem (env : VAEnv) (s : VASuspect) (sf : List ℚ)
    (videos : List VideoRec) (thr : ℚ) (frame : VAFrame) :
    ∀ (ps : List VAPerson) (k : Nat) (r : VATrackingResult),
      r ∈ (processPersons env s sf videos thr frame ps k).1 →
        thr ≤ r.confidence ∧ r.timestamp = frame.timestamp
  | [], k, r => by
    intro h
    simp [processPersons] at h
  | p :: ps, k, r => by
    intro h
    by_cases hf : p.features.isEmpty
    · simp only [processPersons, if_pos hf] at h
      exact processPersons_mem env s sf videos thr frame ps k r h
    · simp only [processPersons, if_neg hf] at h
      by_cases hc : thr ≤ env.calcSim sf p.features * 100
      · rw [if_pos hc] at h
        rcases List.mem_cons.1 h with h | h
        · subst h
          exact ⟨hc, rfl⟩
        · exact processPersons_mem env s sf videos thr frame ps (k + 1) r h
      · rw [if_neg hc] at h
        exact processPersons_mem env s sf videos thr frame ps k r h

/-- Every result the batch pass emits passes the confidence threshold
and carries the timestamp of one of the processed frames. -/
theorem pfb_mem (env : VAEnv) (s : VASuspect) (sf : List ℚ)
    (videos : List VideoRec) (thr : ℚ) :
    ∀ (frames : List VAFrame) (k : Nat) (r : VATrackingResult),
      r ∈ (_process_frames_batch env s sf videos thr frames k).1 →
        thr ≤ r.confidence ∧
          ∃ f ∈ frames, r.timestamp = f.timestamp
  | [], k, r => by
    intro h
    simp [_process_frames_batch] at h
  | frame :: rest, k, r => by
    intro h
    by_cases hp : frame.persons.isEmpty
    · simp only [_process_frames_batch, if_pos hp] at h
      obtain ⟨hc, f, hf, hts⟩ := pfb_mem env s sf videos thr rest k r h
      exact ⟨hc, f, List.mem_cons_of_mem frame hf, hts⟩
    · simp only [_process_frames_batch, if_neg hp] at h
      rcases List.mem_append.1 h with h | h
      · obtain ⟨hc, hts⟩ :=
          processPersons_mem env s sf videos thr frame frame.persons k r h
        exact ⟨hc, frame, List.mem_cons_self frame rest, hts⟩
      · obtain ⟨hc, f, hf, hts⟩ := pfb_mem env s sf videos thr rest _ r h
        exact ⟨hc, f, List.mem_cons_of_mem frame hf, hts⟩

/-- The behaviour-pattern pass only appends notes: every output result
is an input result with its confidence and timestamp unchanged. -/
theorem analyze_mem (rs : List VATrackingResult) (r' : VATrackingResult)
    (h : r' ∈ _analyze_behavior_patterns rs) :
    ∃ r ∈ rs, r'.confidence = r.confidence ∧
      r'.timestamp = r.timestamp := by
  unfold _analyze_behavior_patterns at h
  split at h
  · exact ⟨r', h, rfl, rfl⟩
  · obtain ⟨r, hr, hfr⟩ := List.mem_map.1 h
    by_cases hc : 1 < rs.countP (fun x => x.location == r.location)
    · rw [if_pos hc] at hfr
      exact ⟨r, hr, by rw [← hfr], by rw [← hfr]⟩
    · rw [if_neg hc] at hfr
      exact ⟨r, hr, by rw [← hfr], by rw [← hfr]⟩

/-- Every result of the video-analyzer `track_suspect` passes the
supplied confidence threshold and carries the timestamp of one of the
gathered (timeframe-filtered) frames. -/
theorem va_track_mem (env : VAEnv) (s : VASuspect)
    (videos : List VideoRec) (tf : Option VATimeframe) (thr : ℚ)
    (r : VATrackingResult) (h : r ∈ track_suspect env s videos tf thr) :
    thr ≤ r.confidence ∧
      ∃ f ∈ gatherFrames env videos tf, r.timestamp = f.timestamp := by
  unfold track_suspect at h
  by_cases h1 : env.suspectImageExists s.id = false
  · rw [if_pos h1] at h
    exact absurd h (List.not_mem_nil r)
  · rw [if_neg h1] at h
    dsimp only at h
    by_cases h2 :
        (List.insertionSort vaFrameLE (gatherFrames env videos tf)).isEmpty
    · rw [if_pos h2] at h
      exact absurd h (List.not_mem_nil r)
    · rw [if_neg h2] at h
      obtain ⟨r1, hr1, hconf, hts⟩ := analyze_mem _ r h
      rw [_detect_appearance_changes, _verify_identity_consistency,
        batch_stage_eq] at hr1
      obtain ⟨hc, f, hf, hts1⟩ := pfb_mem env s _ videos thr _ 0 r1 hr1
      refine ⟨by rw [hconf]; exact hc, f, ?_, by rw [hts, hts1]⟩
      exact (List.mem_insertionSort vaFrameLE).1 hf

end VideoAnalyzer

namespace SuspectTracker

/-- Inversion for `flatMapE`: every element of a successful run comes
from a successful run of the body on some list element. -/
theorem flatMapE_ok_mem {α β ε : Type} (f : α → Except ε (List β)) :
    ∀ (l : List α) (bs : List β) (b : β),
      flatMapE f l = .ok bs → b ∈ bs →
        ∃ a ∈ l, ∃ bs', f a = .ok bs' ∧ b ∈ bs'
  | [], bs, b => by
    intro h hb
    simp only [flatMapE, Except.ok.injEq] at h
    subst h
    exact absurd hb (List.not_mem_nil b)
  | a :: as, bs, b => by
    intro h hb
    cases hfa : f a with
    | error e =>
      simp [flatMapE, hfa, Bind.bind, Except.bind] at h
    | ok bs1 =>
      cases hrest : flatMapE f as with
      | error e =>
        simp [flatMapE, hfa, hrest, Bind.bind, Except.bind, pure,
          Except.pure] at h
      | ok bs2 =>
        simp only [flatMapE, hfa, hrest, Bind.bind, Except.bind, pure,
          Except.pure, Except.ok.injEq] at h
        subst h
        rcases List.mem_append.1 hb with hb | hb
        · exact ⟨a, List.mem_cons_self a as, bs1, hfa, hb⟩
        · obtain ⟨a', ha', bs', hfa', hb'⟩ :=
            flatMapE_ok_mem f as bs2 b hrest hb
          exact ⟨a', List.mem_cons_of_mem a ha', bs', hfa', hb'⟩

/-- Every result of a successful `suspect_tracker.track_suspect` run has
confidence at least 70 (the hardcoded `threshold = 0.7` similarity floor
times 100). -/
theorem st_track_conf (env : STEnv) (s : STSuspect)
    (videos : List STVideo) (tf : Option STTimeframe)
    (rs : List STTrackingResult) (h : track_suspect env s videos tf = .ok rs)
    (r : STTrackingResult) (hr : r ∈ rs) : 70 ≤ r.confidence := by
  unfold track_suspect at h
  by_cases h1 : env.fileExists (suspectImagePath s) = false
  · rw [if_pos h1] at h
    simp only [Except.ok.injEq] at h
    subst h
    exact absurd hr (List.not_mem_nil r)
  · rw [if_neg h1] at h
    cases hfm : flatMapE (fun video =>
        if env.fileExists ("data/videos/frames/" ++ video.id) = false then
          .ok []
        else
          flatMapE (fun p =>
            flatMapE (fun q => do
              let person_embedding := env.personEmbedding video.id p.1 q.1
              let similarity ←
                compare_embeddings env.suspectEmbedding person_embedding
              pure (if (7 : ℚ) / 10 ≤ similarity then
                  [mkTrackingResult s video p.1 q.1 similarity q.2]
                else []))
              ((env.detections video.id p.1).enum))
            ((env.frameFiles video.id).enum)) videos with
    | error e =>
      rw [hfm] at h
      simp [Bind.bind, Except.bind] at h
    | ok results =>
      rw [hfm] at h
      simp only [Bind.bind, Except.bind, pure, Except.pure,
        Except.ok.injEq] at h
      have hrres : r ∈ results := by
        have hr' : r ∈ List.insertionSort stLE results := by
          cases tf with
          | none =>
            rw [← h] at hr
            exact hr
          | some t =>
            rw [← h] at hr
            exact (List.mem_filter.1 hr).1
        exact (List.mem_insertionSort stLE).1 hr'
      obtain ⟨video, hv, bs1, hfa, hrb⟩ :=
        flatMapE_ok_mem _ videos results r hfm hrres
      by_cases h2 : env.fileExists ("data/videos/frames/" ++ video.id) = false
      · rw [if_pos h2] at hfa
        simp only [Except.ok.injEq] at hfa
        subst hfa
        exact absurd hrb (List.not_mem_nil r)
      · rw [if_neg h2] at hfa
        obtain ⟨p, hp, bs2, hfp, hrb2⟩ :=
          flatMapE_ok_mem _ _ _ _ hfa hrb
        obtain ⟨q, hq, bs3, hfq, hrb3⟩ :=
          flatMapE_ok_mem _ _ _ _ hfp hrb2
        cases hcmp : compare_embeddings env.suspectEmbedding
            (env.personEmbedding video.id p.1 q.1) with
        | error e =>
          simp [hcmp, Bind.bind, Except.bind] at hfq
        | ok sim =>
          simp only [hcmp, Bind.bind, Except.bind, pure, Except.pure,
            Except.ok.injEq] at hfq
          subst hfq
          by_cases hsim : (7 : ℚ) / 10 ≤ sim
          · rw [if_pos hsim] at hrb3
            rw [List.mem_singleton.1 hrb3]
            show (70 : ℚ) ≤ sim * 100
            linarith
          · rw [if_neg hsim] at hrb3
            exact absurd hrb3 (List.not_mem_nil r)

end SuspectTracker

/-- **C1.** Every tracking result returned by `track_suspect` meets the
confidence threshold: for the video-analyzer tracker, every result has
`confidence >= T` for the supplied threshold `T` (below-threshold
detections are discarded, never retained); for the suspect_tracker
variant, whose similarity floor is the hardcoded `0.7`, every result has
`confidence >= 70`. -/
theorem track_confidence_threshold :
    (∀ (env : VideoAnalyzer.VAEnv) (s : VideoAnalyzer.VASuspect)
        (videos : List VideoAnalyzer.VideoRec)
        (tf : Option VideoAnalyzer.VATimeframe) (thr : ℚ)
        (r : VideoAnalyzer.VATrackingResult),
      r ∈ VideoAnalyzer.track_suspect env s videos tf thr →
        thr ≤ r.confidence) ∧
    (∀ (env : SuspectTracker.STEnv) (s : SuspectTracker.STSuspect)
        (videos : List SuspectTracker.STVideo)
        (tf : Option SuspectTracker.STTimeframe)
        (rs : List SuspectTracker.STTrackingResult)
        (r : SuspectTracker.STTrackingResult),
      SuspectTracker.track_suspect env s videos tf = .ok rs → r ∈ rs →
        70 ≤ r.confidence) :=
  ⟨fun env s videos tf thr r h =>
      (VideoAnalyzer.va_track_mem env s videos tf thr r h).1,
   fun env s videos tf rs r h hr =>
      SuspectTracker.st_track_conf env s videos tf rs h r hr⟩

/-- Witness for `track_confidence_threshold`: concrete single-frame runs
of both trackers produce a result of confidence 100, which meets the
thresholds. -/
theorem track_confidence_threshold_witness :
    ((70 : ℚ) ≤ (⟨"track-u0", "s1", "v1", "f1", 0, "Unknown", 100, [],
      "/frames/v1/f1.jpg", [], [], [], []⟩ :
        VideoAnalyzer.VATrackingResult).confidence) ∧
    ((70 : ℚ) ≤ (⟨"event-v1-0-0", "s1", "v1", 0, 100, 0, [], 0, 5⟩ :
        SuspectTracker.STTrackingResult).confidence) := by
  constructor
  · refine track_confidence_threshold.1
      ⟨fun _ => true, fun _ => [1],
       [⟨"f1", "v1", 0, [⟨[1], [], [], [], []⟩]⟩],
       fun _ _ => 1, fun _ => "u0"⟩
      ⟨"s1"⟩ [⟨"v1", none, none, none⟩] none 70 _ ?_
    simp +decide [VideoAnalyzer.track_suspect, VideoAnalyzer.gatherFrames,
      VideoAnalyzer.batch_stage, VideoAnalyzer._process_frames_batch,
      VideoAnalyzer.processPersons, VideoAnalyzer.mkVAResult,
      VideoAnalyzer.lookupLocation,
      VideoAnalyzer._verify_identity_consistency,
      VideoAnalyzer._detect_appearance_changes,
      VideoAnalyzer._analyze_behavior_patterns, List.insertionSort,
      List.orderedInsert, one_mul]
  · refine track_confidence_threshold.2
      ⟨fun _ => true, [1], fun _ => ["frame_0000.jpg"],
       fun _ _ => [⟨[], 1⟩], fun _ _ _ => [1]⟩
      ⟨"s1", "/suspects/s1.jpg"⟩ [⟨"v1", 0⟩] none
      [⟨"event-v1-0-0", "s1", "v1", 0, 100, 0, [], 0, 5⟩] _ ?_
      (List.mem_singleton_self _)
    have q1 : max (0 : ℚ) (min 1 1) = 1 := by norm_num
    have p7 : (7 : ℚ) / 10 ≤ 1 := by norm_num
    simp +decide [SuspectTracker.track_suspect, SuspectTracker.flatMapE,
      SuspectTracker.compare_embeddings, np_dot, dotList,
      SuspectTracker.mkTrackingResult, List.insertionSort,
      List.orderedInsert, Bind.bind, Except.bind, pure, Except.pure,
      q1, p7, one_mul, mul_one, add_zero]

namespace SuspectTracker

/-- Every result of a successful `suspect_tracker.track_suspect` run
with a supplied timeframe lies inside the inclusive bounds. -/
theorem st_track_timeframe (env : STEnv) (s : STSuspect)
    (videos : List STVideo) (ts te : Int) (rs : List STTrackingResult)
    (h : track_suspect env s videos (some ⟨ts, te⟩) = .ok rs)
    (r : STTrackingResult) (hr : r ∈ rs) :
    ts ≤ r.timestamp ∧ r.timestamp ≤ te := by
  unfold track_suspect at h
  by_cases h1 : env.fileExists (suspectImagePath s) = false
  · rw [if_pos h1] at h
    simp only [Except.ok.injEq] at h
    subst h
    exact absurd hr (List.not_mem_nil r)
  · rw [if_neg h1] at h
    cases hfm : flatMapE (fun video =>
        if env.fileExists ("data/videos/frames/" ++ video.id) = false then
          .ok []
        else
          flatMapE (fun p =>
            flatMapE (fun q => do
              let person_embedding := env.personEmbedding video.id p.1 q.1
              let similarity ←
                compare_embeddings env.suspectEmbedding person_embedding
              pure (if (7 : ℚ) / 10 ≤ similarity then
                  [mkTrackingResult s video p.1 q.1 similarity q.2]
                else []))
              ((env.detections video.id p.1).enum))
            ((env.frameFiles video.id).enum)) videos with
    | error e =>
      rw [hfm] at h
      simp [Bind.bind, Except.bind] at h
    | ok results =>
      rw [hfm] at h
      simp only [Bind.bind, Except.bind, pure, Except.pure,
        Except.ok.injEq] at h
      rw [← h] at hr
      have hp := (List.mem_filter.1 hr).2
      simp only [Bool.and_eq_true, decide_eq_true_eq] at hp
      exact hp

end SuspectTracker

/-- **C9.** When a timeframe filter `{start, end}` is supplied, every
tracking result returned by `track_suspect` satisfies
`start <= timestamp <= end` — the bounds are inclusive — and no result
outside the range appears: the suspect_tracker variant post-filters its
results with `start <= t <= end`, and the video-analyzer variant filters
the source frames the same way before processing, results inheriting the
frame timestamps. -/
theorem timeframe_filter_inclusive :
    (∀ (env : SuspectTracker.STEnv) (s : SuspectTracker.STSuspect)
        (videos : List SuspectTracker.STVideo) (ts te : Int)
        (rs : List SuspectTracker.STTrackingResult)
        (r : SuspectTracker.STTrackingResult),
      SuspectTracker.track_suspect env s videos (some ⟨ts, te⟩) = .ok rs →
      r ∈ rs → ts ≤ r.timestamp ∧ r.timestamp ≤ te) ∧
    (∀ (env : VideoAnalyzer.VAEnv) (s : VideoAnalyzer.VASuspect)
        (videos : List VideoAnalyzer.VideoRec) (ts te : Int) (thr : ℚ)
        (r : VideoAnalyzer.VATrackingResult),
      r ∈ VideoAnalyzer.track_suspect env s videos
        (some ⟨some ts, some te⟩) thr →
      ts ≤ r.timestamp ∧ r.timestamp ≤ te) := by
  constructor
  · intro env s videos ts te rs r h hr
    exact SuspectTracker.st_track_timeframe env s videos ts te rs h r hr
  · intro env s videos ts te thr r h
    obtain ⟨-, f, hf, hts⟩ := VideoAnalyzer.va_track_mem env s videos
      (some ⟨some ts, some te⟩) thr r h
    unfold VideoAnalyzer.gatherFrames at hf
    obtain ⟨video, hv, hf2⟩ := List.mem_flatMap.1 hf
    have hkeep := (List.mem_filter.1 hf2).2
    unfold VideoAnalyzer.timeframeKeep at hkeep
    simp only [Bool.and_eq_true, Bool.not_eq_true', decide_eq_false_iff_not,
      not_lt] at hkeep
    rw [hts]
    exact hkeep

/-- Witness for `timeframe_filter_inclusive`: concrete single-frame runs
of both trackers under the filter `[0, 50]` return a result whose
timestamp 0 lies inside the inclusive bounds. -/
theorem timeframe_filter_inclusive_witness :
    ((0 : Int) ≤ (⟨"event-v9-0-0", "s9", "v9", 0, 100, 0, [], 0, 5⟩ :
        SuspectTracker.STTrackingResult).timestamp ∧
      (⟨"event-v9-0-0", "s9", "v9", 0, 100, 0, [], 0, 5⟩ :
        SuspectTracker.STTrackingResult).timestamp ≤ 50) ∧
    ((0 : Int) ≤ (⟨"track-u9", "s9", "v9", "f9", 0, "Unknown", 100, [],
        "/frames/v9/f9.jpg", [], [], [], []⟩ :
        VideoAnalyzer.VATrackingResult).timestamp ∧
      (⟨"track-u9", "s9", "v9", "f9", 0, "Unknown", 100, [],
        "/frames/v9/f9.jpg", [], [], [], []⟩ :
        VideoAnalyzer.VATrackingResult).timestamp ≤ 50) := by
  constructor
  · refine timeframe_filter_inclusive.1
      ⟨fun _ => true, [1], fun _ => ["frame_0000.jpg"],
       fun _ _ => [⟨[], 1⟩], fun _ _ _ => [1]⟩
      ⟨"s9", "/suspects/s9.jpg"⟩ [⟨"v9", 0⟩] 0 50
      [⟨"event-v9-0-0", "s9", "v9", 0, 100, 0, [], 0, 5⟩] _ ?_
      (List.mem_singleton_self _)
    have q1 : max (0 : ℚ) (min 1 1) = 1 := by norm_num
    have p7 : (7 : ℚ) / 10 ≤ 1 := by norm_num
    simp +decide [SuspectTracker.track_suspect, SuspectTracker.flatMapE,
      SuspectTracker.compare_embeddings, np_dot, dotList,
      SuspectTracker.mkTrackingResult, List.insertionSort,
      List.orderedInsert, Bind.bind, Except.bind, pure, Except.pure,
      q1, p7, one_mul, mul_one, add_zero]
  · refine timeframe_filter_inclusive.2
      ⟨fun _ => true, fun _ => [1],
       [⟨"f9", "v9", 0, [⟨[1], [], [], [], []⟩]⟩],
       fun _ _ => 1, fun _ => "u9"⟩
      ⟨"s9"⟩ [⟨"v9", none, none, none⟩] 0 50 70 _ ?_
    simp +decide [VideoAnalyzer.track_suspect, VideoAnalyzer.gatherFrames,
      VideoAnalyzer.timeframeKeep, VideoAnalyzer.batch_stage,
      VideoAnalyzer._process_frames_batch, VideoAnalyzer.processPersons,
      VideoAnalyzer.mkVAResult, VideoAnalyzer.lookupLocation,
      VideoAnalyzer._verify_identity_consistency,
      VideoAnalyzer._detect_appearance_changes,
      VideoAnalyzer._analyze_behavior_patterns, List.insertionSort,
      List.orderedInsert, one_mul]
